import Mathlib

/-!
Verification development for the network-cache simulation core
(`src/net/topology.py`, class `NetTopology`).

The Python code is shallowly embedded: the topology state is a structure,
mutation is explicit state passing, Python exceptions are `Except PyErr`,
and the observable side effects of a run (snapshot writes) are an explicit
event list.  Python floats that hold sizes, bandwidths and capacity scale
factors are modelled as exact rationals (`Q` below, kept executable so the
kernel can evaluate concrete runs).  Helper modules of the repository that
are imported by `topology.py` but whose sources are not available
(`src/algorithm/cache`, `src/util/coloring`, `src/util/utils`,
`src/util/gen_files`, `src/util/sampling`) are modelled from the
specification; each such definition carries a doc comment starting with
"Modelled from the spec:".
-/

/-- Exact rational numbers with executable arithmetic.  Python float
arithmetic on sizes and 1/bandwidth weights is modelled exactly; values are
kept unnormalised (no gcd), so value equality is the cross-multiplication
test `qeq`, not structural equality.  The denominator is kept positive by
construction. -/
structure Q where
  num : Int
  den : Int
deriving DecidableEq, Repr

def qMk (n d : Int) : Q :=
  if d < 0 then { num := -n, den := -d } else { num := n, den := d }

def qOfInt (n : Int) : Q := { num := n, den := 1 }

instance : OfNat Q n := ⟨qOfInt n⟩

def qAdd (a b : Q) : Q := { num := a.num * b.den + b.num * a.den, den := a.den * b.den }

def qMul (a b : Q) : Q := { num := a.num * b.num, den := a.den * b.den }

def qDiv (a b : Q) : Q := qMk (a.num * b.den) (a.den * b.num)

def qLe (a b : Q) : Bool := a.num * b.den ≤ b.num * a.den

def qLt (a b : Q) : Bool := a.num * b.den < b.num * a.den

def qeq (a b : Q) : Bool := a.num * b.den == b.num * a.den

def qIsZero (a : Q) : Bool := a.num == 0

/-- Python exceptions that the embedded code can raise. -/
inductive PyErr
  | keyError (k : String)
  | valueError (m : String)
  | attributeError (m : String)
  | nameError (m : String)
  | indexError (m : String)
  | zeroDivisionError
deriving DecidableEq, Repr

def isOkE {α : Type} : Except PyErr α → Bool
  | .ok _ => true
  | .error _ => false

/-- Python dict lookup (`d[k]` wrapped as an option; the raising form is at
the use sites). -/
def dlookup {α : Type} : List (String × α) → String → Option α
  | [], _ => none
  | (k, v) :: rest, key => if k = key then some v else dlookup rest key

/-- Python dict assignment `d[k] = v`: replaces the value in place (keeping
insertion order) or appends a new binding. -/
def dictSet {α : Type} : List (String × α) → String → α → List (String × α)
  | [], key, v => [(key, v)]
  | (k, w) :: rest, key, v =>
      if k = key then (key, v) :: rest else (k, w) :: dictSet rest key v

/-- Python list indexing `l[i]`, raising IndexError out of range. -/
def pyGetIdx {α : Type} : List α → Nat → Except PyErr α
  | [], _ => .error (.indexError "list index out of range")
  | a :: _, 0 => .ok a
  | _ :: rest, n + 1 => pyGetIdx rest n

/-- Python `list.remove(x)`: drops the first occurrence, raising ValueError
when `x` is absent. -/
def pyRemove : List String → String → Except PyErr (List String)
  | [], x => .error (.valueError x)
  | a :: rest, x =>
      if a = x then .ok rest
      else do
        let r ← pyRemove rest x
        .ok (a :: r)

def isPrefixOfChars : List Char → List Char → Bool
  | [], _ => true
  | _ :: _, [] => false
  | p :: ps, c :: cs => if p = c then isPrefixOfChars ps cs else false

/-- Splitter for Python `str.split` / substring tests, over char lists with
fuel (the separator is always nonempty at the call sites, so the fuel
`length + 1` suffices). -/
def splitOnCharsAux (sep : List Char) : Nat → List Char → List Char → List (List Char)
  | 0, cur, s => [cur.reverse ++ s]
  | _ + 1, cur, [] => [cur.reverse]
  | fuel + 1, cur, c :: rest =>
      if isPrefixOfChars sep (c :: rest) then
        cur.reverse :: splitOnCharsAux sep fuel [] (List.drop sep.length (c :: rest))
      else
        splitOnCharsAux sep fuel (c :: cur) rest

def pySplitOn (s sep : String) : List String :=
  (splitOnCharsAux sep.data (s.data.length + 1) [] s.data).map String.mk

def joinChars (sep : List Char) : List (List Char) → List Char
  | [] => []
  | [x] => x
  | x :: xs => x ++ sep ++ joinChars sep xs

/-- Python `str.replace(pat, rep)` (replaces every occurrence). -/
def pyReplace (s pat rep : String) : String :=
  String.mk (joinChars rep.data (splitOnCharsAux pat.data (s.data.length + 1) [] s.data))

/-- Python `pat in s` substring test. -/
def strContainsSub (s pat : String) : Bool :=
  (splitOnCharsAux pat.data (s.data.length + 1) [] s.data).length ≥ 2

/-- Python tuple unpacking `a, b = s.split(sep)`: ValueError unless the
split yields exactly two parts. -/
def pySplit2 (s sep : String) : Except PyErr (String × String) :=
  match pySplitOn s sep with
  | [a, b] => .ok (a, b)
  | _ => .error (.valueError "unpack")

def charsLt : List Char → List Char → Bool
  | [], [] => false
  | [], _ :: _ => true
  | _ :: _, [] => false
  | a :: as, b :: bs =>
      if a.toNat < b.toNat then true
      else if b.toNat < a.toNat then false
      else charsLt as bs

/-- Lexicographic string comparison used only for deterministic tie-breaks
inside the spec-modelled coloring engine. -/
def strLtB (a b : String) : Bool := charsLt a.data b.data

/-- Modelled from the spec: a Cache Entry (section 3): content identifier,
size, and policy metadata (an access counter; list position encodes
recency / insertion order).  The cache classes `LRUCache`, `LFUCache`,
`FIFOCache`, `ColorCache` live in `src/algorithm/cache`, which is not under
`src/`. -/
structure Entry where
  cid : Nat
  sz : Q
deriving DecidableEq, Repr

/-- Modelled from the spec: the four Cache Store policies of section 4.2
(`src/algorithm/cache`, not under `src/`).  For `lru` the list front is the
least-recently-used entry; for `lfu` the list is in insertion order with an
access counter per entry; for `fifo` the front is the oldest insertion.
`colorStore` is the Hybrid/color-partitioned policy: a color tag set
post-construction via `setServerColor`, a capacity share for the own-color
sub-store, and separate own/overflow entry lists. -/
inductive CacheStore
  | lru (maxSize : Q) (entries : List Entry)
  | lfu (maxSize : Q) (entries : List (Entry × Nat))
  | fifo (maxSize : Q) (entries : List Entry)
  | colorStore (tag : Option Nat) (share : Q) (maxSize : Q) (own ovf : List Entry)
deriving DecidableEq, Repr

def occupied (es : List Entry) : Q := es.foldl (fun a e => qAdd a e.sz) 0

/-- Modelled from the spec: evict entries from the front of the list until
the incoming size fits under the capacity (section 4.2); front placement of
the eviction victim is arranged by each policy. -/
def evictLoop (cap inc : Q) : Nat → List Entry → List Entry
  | 0, es => es
  | _ + 1, [] => []
  | fuel + 1, e :: rest =>
      if qLe (qAdd (occupied (e :: rest)) inc) cap then e :: rest
      else evictLoop cap inc fuel rest

/-- Modelled from the spec: insert with eviction; an item larger than the
whole capacity is a no-op (CapacityExceeded is recovered locally, section
4.2/7), and a store never holds two entries with one content id. -/
def insertEvict (cap : Q) (es : List Entry) (cid : Nat) (sz : Q) : List Entry :=
  if qLt cap sz then es
  else if es.any (fun e => e.cid == cid) then es
  else evictLoop cap sz es.length es ++ [{ cid := cid, sz := sz }]

def touchLru (es : List Entry) (cid : Nat) : List Entry :=
  match es.find? (fun e => e.cid == cid) with
  | some e => es.filter (fun x => !(x.cid == cid)) ++ [e]
  | none => es

def occupiedL (es : List (Entry × Nat)) : Q := es.foldl (fun a e => qAdd a e.1.sz) 0

def minCountSel : List (Entry × Nat) → Option Nat
  | [] => none
  | e :: rest =>
      match minCountSel rest with
      | none => some 0
      | some j =>
          match pyGetIdx rest j with
          | .ok f => if e.2 ≤ f.2 then some 0 else some (j + 1)
          | .error _ => some 0

/-- Modelled from the spec: LFU eviction removes lowest-counter entries
first, ties broken by oldest insertion (section 4.2). -/
def evictLfu (cap inc : Q) : Nat → List (Entry × Nat) → List (Entry × Nat)
  | 0, es => es
  | _ + 1, [] => []
  | fuel + 1, es =>
      if qLe (qAdd (occupiedL es) inc) cap then es
      else
        match minCountSel es with
        | some j => evictLfu cap inc fuel (es.eraseIdx j)
        | none => es

def insertLfu (cap : Q) (es : List (Entry × Nat)) (cid : Nat) (sz : Q) : List (Entry × Nat) :=
  if qLt cap sz then es
  else if es.any (fun e => e.1.cid == cid) then es
  else evictLfu cap sz es.length es ++ [({ cid := cid, sz := sz }, 1)]

def CacheStore.containsId : CacheStore → Nat → Bool
  | .lru _ es, c => es.any (fun e => e.cid == c)
  | .lfu _ es, c => es.any (fun e => e.1.cid == c)
  | .fifo _ es, c => es.any (fun e => e.cid == c)
  | .colorStore _ _ _ own ovf, c =>
      own.any (fun e => e.cid == c) || ovf.any (fun e => e.cid == c)

/-- Modelled from the spec: the hit update of each policy: LRU moves the
entry to the most-recently-used end, LFU increments its counter, FIFO keeps
insertion order, Hybrid refreshes within its sub-store (section 4.2). -/
def CacheStore.onHit : CacheStore → Nat → CacheStore
  | .lru m es, c => .lru m (touchLru es c)
  | .lfu m es, c => .lfu m (es.map (fun e => if e.1.cid == c then (e.1, e.2 + 1) else e))
  | .fifo m es, _ => .fifo m es
  | .colorStore t r m own ovf, c =>
      if own.any (fun e => e.cid == c) then .colorStore t r m (touchLru own c) ovf
      else .colorStore t r m own (touchLru ovf c)

/-- Modelled from the spec: insertion under each policy; the Hybrid store
partitions its capacity by the configured share: a request carrying the
store's own color goes to the own-color sub-store (capacity
`share * maxSize`), anything else to the bounded overflow sub-store, and
the own-color sub-store never evicts to satisfy overflow demand
(section 4.2). -/
def CacheStore.insertItem : CacheStore → Nat → Q → Option Nat → CacheStore
  | .lru m es, c, s, _ => .lru m (insertEvict m es c s)
  | .lfu m es, c, s, _ => .lfu m (insertLfu m es c s)
  | .fifo m es, c, s, _ => .fifo m (insertEvict m es c s)
  | .colorStore t r m own ovf, c, s, reqColor =>
      if t.isSome && (reqColor == t) then
        .colorStore t r m (insertEvict (qMul r m) own c s) ovf
      else
        .colorStore t r m own (insertEvict (qAdd m (qMul (qMul r m) (qOfInt (-1)))) ovf c s)

/-- Modelled from the spec: only the Hybrid/color-partitioned store exposes
`setServerColor` (section 4.2/4.4); on any other store the attribute is
missing and Python raises AttributeError. -/
def CacheStore.setServerColor : CacheStore → Nat → Except PyErr CacheStore
  | .colorStore _ r m own ovf, c => .ok (.colorStore (some c) r m own ovf)
  | _, _ => .error (.attributeError "setServerColor")

def CacheStore.isColorStore : CacheStore → Bool
  | .colorStore _ _ _ _ _ => true
  | _ => false

def CacheStore.maxSizeOf : CacheStore → Q
  | .lru m _ => m
  | .lfu m _ => m
  | .fifo m _ => m
  | .colorStore _ _ m _ _ => m

/-- Node attribute recording how `build` added the node: routers via
`add_node(id, ip=...)`, clients via `add_node(id, ip=..., gw=...)`. -/
inductive NodeKind
  | routerNode
  | clientNode
deriving DecidableEq, Repr

/-- One undirected edge of the `networkx` graph with the attributes that
`build` stores on it. -/
structure Edge where
  n1 : String
  n2 : String
  interface_1 : String
  interface_2 : String
  id_1 : String
  ip_1 : String
  ip_2 : String
  weight : Q
deriving DecidableEq, Repr

structure Graph where
  nodes : List (String × NodeKind)
  edges : List Edge
deriving DecidableEq, Repr

def graphEmpty : Graph := { nodes := [], edges := [] }

/-- `networkx` `add_node`: adding an existing node keeps it (attribute
updates are not observable in this model). -/
def Graph.addNode (g : Graph) (n : String) (k : NodeKind) : Graph :=
  if g.nodes.any (fun p => decide (p.1 = n)) then g
  else { g with nodes := g.nodes ++ [(n, k)] }

def sameEnds (e : Edge) (a b : String) : Bool :=
  (decide (e.n1 = a) && decide (e.n2 = b)) || (decide (e.n1 = b) && decide (e.n2 = a))

/-- `networkx` `Graph.add_edge` on an undirected graph: endpoints are added
as nodes if absent, and an existing edge between the same (unordered) pair
is replaced, otherwise the edge is appended. -/
def Graph.addEdge (g : Graph) (e : Edge) : Graph :=
  let g1 := (g.addNode e.n1 .routerNode).addNode e.n2 .routerNode
  if g1.edges.any (fun x => sameEnds x e.n1 e.n2) then
    { g1 with edges := g1.edges.map (fun x => if sameEnds x e.n1 e.n2 then e else x) }
  else
    { g1 with edges := g1.edges ++ [e] }

def Graph.edgeWeight (g : Graph) (a b : String) : Option Q :=
  (g.edges.find? (fun e => sameEnds e a b)).map Edge.weight

def Graph.routerNodes (g : Graph) : List String :=
  (g.nodes.filter (fun p => decide (p.2 = NodeKind.routerNode))).map Prod.fst

def Graph.clientNodes (g : Graph) : List String :=
  (g.nodes.filter (fun p => decide (p.2 = NodeKind.clientNode))).map Prod.fst

/-- One relaxation of a directed edge for the Bellman-Ford tables carrying
distance and the realizing path. -/
def spRelaxEdge (d : List (String × Q × List String)) (u v : String) (w : Q) :
    List (String × Q × List String) :=
  match dlookup d u with
  | none => d
  | some (du, pu) =>
      match dlookup d v with
      | none => dictSet d v (qAdd du w, pu ++ [v])
      | some (dv, _) =>
          if qLt (qAdd du w) dv then dictSet d v (qAdd du w, pu ++ [v]) else d

def spRelaxAll (edges : List Edge) (d : List (String × Q × List String)) :
    List (String × Q × List String) :=
  edges.foldl (fun d e => spRelaxEdge (spRelaxEdge d e.n1 e.n2 e.weight) e.n2 e.n1 e.weight) d

/-- Modelled from the spec: single-source shortest weighted paths over the
undirected graph (the Dijkstra call of `src/util/utils`, not under `src/`),
computed Bellman-Ford style with a deterministic edge order. -/
def spTables (g : Graph) (src : String) : List (String × Q × List String) :=
  (List.range g.nodes.length).foldl (fun d _ => spRelaxAll g.edges d) [(src, (0, [src]))]

def spPath (g : Graph) (src dst : String) : Option (List String) :=
  (dlookup (spTables g src) dst).map (fun p => p.2)

def distBetween (g : Graph) (a b : String) : Option Q := (dlookup (spTables g a) b).map Prod.fst

def pickNearer (g : Graph) (c : String) (best : Option (Q × String)) (srv : String) :
    Option (Q × String) :=
  match distBetween g c srv, best with
  | none, b => b
  | some d, none => some (d, srv)
  | some d, some (bd, bs) =>
      if qLt d bd || (qeq d bd && strLtB srv bs) then some (d, srv) else some (bd, bs)

/-- Modelled from the spec: for a client and a color, the nearest-by-path-
weight server carrying that color, ties broken by lowest node identifier
(section 4.3). -/
def nearestColorServer (g : Graph) (m : List (String × Nat)) (c : String) (col : Nat) :
    Option String :=
  (((m.filter (fun p => decide (p.2 = col))).map Prod.fst).foldl (pickNearer g c) none).map
    Prod.snd

def colorValues (colorList : Option (List Nat)) : List Nat :=
  match colorList with
  | none => [0]
  | some [] => [0]
  | some cs => cs

/-- Modelled from the spec: the coloring engine `getColoringInfo` of
`src/util/coloring` (not under `src/`), contract of section 4.3:
`colorize(graph, color_list)` returns the nearest-color routing-hint table
and the node-to-color map.  Servers (non-client nodes other than the origin
`mainServer`) are assigned colors from the color list in node order
(balanced round-robin); a missing or empty color list degenerates to the
single implicit color 0.  The hint table lists, for every client and every
color, the nearest server of that color. -/
def getColoringInfo (g : Graph) (colorList : Option (List Nat)) :
    (List (String × Nat × String)) × List (String × Nat) :=
  let cs := colorValues colorList
  let servers := g.routerNodes.filter (fun n => decide (¬ n = "mainServer"))
  let m := servers.enum.map (fun p => (p.2, cs.getD (p.1 % cs.length) 0))
  let table := g.clientNodes.foldr (fun c acc =>
    (cs.foldr (fun col acc2 =>
      match nearestColorServer g m c col with
      | some srv => (c, col, srv) :: acc2
      | none => acc2) []) ++ acc) []
  (table, m)

structure WarmStats where
  hits : Nat
  misses : Nat
deriving DecidableEq, Repr

def pathIntermediates (p : List String) : List String := (p.drop 1).dropLast

/-- Modelled from the spec: serving one warm-up request (section 4.4,
no-color bullet): the intermediate cache-capable routers on the path are
tested in order; the first hit refreshes that store, a miss at every hop
fetches from origin and inserts at every intermediate cache along the path
(write-through population). -/
def serveOne (fileSize : Q) (acc : List (String × CacheStore) × WarmStats)
    (hops : List String) (cid : Nat) : List (String × CacheStore) × WarmStats :=
  let dict := acc.1
  let hit := hops.find? (fun h =>
    match dlookup dict h with
    | some st => st.containsId cid
    | none => false)
  match hit with
  | some h =>
      let dict2 :=
        match dlookup dict h with
        | some st => dictSet dict h (st.onHit cid)
        | none => dict
      (dict2, { acc.2 with hits := acc.2.hits + 1 })
  | none =>
      let dict2 := hops.foldl (fun d h =>
        match dlookup d h with
        | some st => dictSet d h (st.insertItem cid fileSize none)
        | none => d) dict
      (dict2, { acc.2 with misses := acc.2.misses + 1 })

/-- Modelled from the spec: the warm-up routing simulator
`warmUpCacheShortestPath` of `src/util/utils` (not under `src/`), section
4.4: each client's request batch is routed along the shortest weighted path
from the client to the origin `mainServer`; per section 7 a client with no
path to the origin (UnreachableNode) is skipped while the other clients
proceed.  It returns the updated store mapping and the hit/miss totals. -/
def warmUpCacheShortestPath (g : Graph) (cacheMemoryDict : List (String × CacheStore))
    (fileSize : Q) (_mode : String) (_routingTable : List (String × List String))
    (warmUpReqDict : List (String × List Nat)) (clients : List String) :
    List (String × CacheStore) × WarmStats :=
  clients.foldl (fun acc c =>
    match dlookup warmUpReqDict c, spPath g c "mainServer" with
    | some reqs, some p =>
        let hops := (pathIntermediates p).filter (fun h => (dlookup acc.1 h).isSome)
        reqs.foldl (fun a cid => serveOne fileSize a hops cid) acc
    | _, _ => acc) (cacheMemoryDict, { hits := 0, misses := 0 })

/-- Modelled from the spec: the reservoir sampler configuration
(`src/util/sampling.ReservoirSampling`, not under `src/`): a fixed-capacity
uniform subsample driven by the configured sample rate (section 4.1). -/
structure Sampler where
  sampleRate : Q
deriving DecidableEq, Repr

/-- Modelled from the spec: the closed-form popularity distributions of
`src/util/gen_files` (not under `src/`): Zipf with a skewness parameter or
Gamma with shape/scale, each over a content universe of the configured
cardinality (section 4.1). -/
inductive DistKind
  | gammaDist (shapeK theta : Q) (contentNums : Nat)
  | zipfDist (skewness : Q) (contentNums : Nat)
deriving DecidableEq, Repr

def distLength : DistKind → Nat
  | .gammaDist _ _ n => n
  | .zipfDist _ n => n

def prngMix (seed i : Nat) : Nat :=
  (seed * 1103515245 + i * 12345 + 12345) % 2147483648

/-- Modelled from the spec: `ContentGenerator.randomGen(n)` of
`src/util/gen_files` (not under `src/`): a restartable (reseedable) draw of
`n` content identifiers from the configured distribution (section 4.1); the
draw is a pure function of the PRNG seed, which is what makes the
determinism requirement of section 4.4 statable. -/
def randomGen (d : DistKind) (seed n : Nat) : List Nat :=
  (List.range n).map (fun i => prngMix seed i % max (distLength d) 1)

/-- Modelled from the spec: the Content Model state of `src/util/gen_files`
(not under `src/`): either a parametric distribution (`dist` is set) or an
empirical per-client trace table keyed by cache name and time interval
(`dist` is `none`), plus the optional reservoir sampler and the size/alpha
configuration (sections 3 and 4.1).  Loading the trace file is modelled as
a lookup in an environment passed to `build`. -/
structure ContentGenerator where
  dist : Option DistKind
  custom_data : List (String × List (String × List Nat))
  fixedContentSize : Int
  alphaVal : Q
  sampleGen : Option Sampler
deriving DecidableEq, Repr

def defaultGenerator : ContentGenerator :=
  { dist := none, custom_data := [], fixedContentSize := 0, alphaVal := 1, sampleGen := none }

structure SamplingCfg where
  method : String
  sampleRate : Q
deriving DecidableEq, Repr

structure GammaCfg where
  shapeK : Q
  theta : Q
  contentNums : Nat
deriving DecidableEq, Repr

structure ZipfCfg where
  skewness : Q
  contentNums : Nat
deriving DecidableEq, Repr

structure CustomCfg where
  path : String
  alphaVal : Q
deriving DecidableEq, Repr

/-- The request-model block: each field is `some` exactly when the
corresponding key is in the dict (the code tests membership with `in`). -/
structure RequestModelsCfg where
  gammaCfg : Option GammaCfg
  zipfCfg : Option ZipfCfg
  customCfg : Option CustomCfg
deriving DecidableEq, Repr

/-- A router entry of the configuration; `rtype` is the "type" key, `none`
when the key is absent (pass-through router). -/
structure RouterCfg where
  ID : String
  IP : String
  rtype : Option String
  maxSize : Q
  capacityRatioVal : Q
deriving DecidableEq, Repr

structure ClientCfg where
  ID : String
  IP : String
  gateway : String
  isTemp : Bool
deriving DecidableEq, Repr

structure LinkParams where
  ip : String
  bw : Q
deriving DecidableEq, Repr

structure LinkCfg where
  NodeIds : List String
  params1 : LinkParams
  params2 : Option LinkParams
deriving DecidableEq, Repr

/-- The loaded configuration dict.  `samplingMethod` is doubly optional:
the outer `Option` is key presence (the code indexes the dict directly, so
an absent key raises KeyError), the inner `Option` is a JSON null value. -/
structure NetConfig where
  samplingMethod : Option (Option SamplingCfg)
  FileSize : Int
  RequestModels : RequestModelsCfg
  Routers : List RouterCfg
  Clients : List ClientCfg
  Links : List LinkCfg
deriving DecidableEq, Repr

/-- The serialized payload of a `pickle.dump` call. -/
inductive Blob
  | cacheDict (d : List (String × CacheStore))
  | nearestInfo (t : List (String × Nat × String))
deriving DecidableEq, Repr

/-- Observable side effects of a run: snapshot writes and prints. -/
inductive Event
  | saveFile (path : String) (blob : Blob)
  | printed (msg : String)
deriving DecidableEq, Repr

/-- The `NetTopology` instance state.  `alphaVal`, `clientIds`,
`routerIds`, `tempClientIds` and `contentGenerator` are populated by
`build`; `seed` is the spec-modelled PRNG state consumed by `randomGen`. -/
structure NetTopology where
  networkInfo : NetConfig
  configDirPath : String
  graph : Graph
  warmUpReqNums : Nat
  parallel_idx : Nat
  colorList : Option (List Nat)
  serverToColorMap : List (String × Nat)
  mode : String
  cacheMemoryDict : List (String × CacheStore)
  fileSize : Q
  alphaVal : Q
  clientIds : List String
  routerIds : List String
  tempClientIds : List String
  contentGenerator : ContentGenerator
  colorRouteInfo : List (String × Nat × String)
  seed : Nat
deriving DecidableEq, Repr

/-- `NetTopology.__init__`: the build-time fields start at their Python
"unset" defaults. -/
def NetTopology.init (config : NetConfig) (configDirPath : String) (mode : String)
    (warmUpReqNums : Nat) (fileSize : Q) (colorList : Option (List Nat)) : NetTopology :=
  { networkInfo := config, configDirPath := configDirPath, graph := graphEmpty,
    warmUpReqNums := warmUpReqNums, parallel_idx := 0, colorList := colorList,
    serverToColorMap := [], mode := mode, cacheMemoryDict := [], fileSize := fileSize,
    alphaVal := 1, clientIds := [], routerIds := [], tempClientIds := [],
    contentGenerator := defaultGenerator, colorRouteInfo := [], seed := 0 }

def pathJoin (d f : String) : String := d ++ "/" ++ f

def cacheDictPath (s : NetTopology) : String :=
  pathJoin s.configDirPath ("cacheDict" ++ toString s.parallel_idx ++ ".pkl")

def nearestInfoPath (s : NetTopology) : String :=
  pathJoin s.configDirPath "nearestColorServerInfo.pkl"

/-- `saveCacheDict`: pickles `cacheMemoryDict` to
`cacheDict<parallel_idx>.pkl` in the config directory. -/
def NetTopology.saveCacheDict (s : NetTopology) : Event :=
  .saveFile (cacheDictPath s) (.cacheDict s.cacheMemoryDict)

/-- `saveNearestColorServerInfo`: pickles `colorRouteInfo` to
`nearestColorServerInfo.pkl` in the config directory. -/
def NetTopology.saveNearestColorServerInfo (s : NetTopology) : Event :=
  .saveFile (nearestInfoPath s) (.nearestInfo s.colorRouteInfo)

/-- `assignColorForCacheMemory`: for every server in the node-to-color map
(in map order) look its store up in `cacheMemoryDict` (KeyError when
absent) and call `setServerColor` on it (AttributeError unless the store is
the Hybrid `ColorCache`). -/
def assignColors (dict : List (String × CacheStore)) :
    List (String × Nat) → Except PyErr (List (String × CacheStore))
  | [] => .ok dict
  | (srv, col) :: rest =>
      match dlookup dict srv with
      | none => .error (.keyError srv)
      | some st => do
          let st2 ← st.setServerColor col
          assignColors (dictSet dict srv st2) rest

/-- One client's warm-up request batch (`warmUp`, no-color branch): drawn
from the distribution when one is configured, otherwise replayed from the
per-client trace data keyed by the client's identifier with "client"
replaced by "Cache", at time interval "Interval0". -/
def warmBatch (gen : ContentGenerator) (seed warmUpReqNums : Nat) (c : String) :
    Except PyErr (List Nat) :=
  match gen.dist with
  | some d => .ok (randomGen d seed warmUpReqNums)
  | none =>
      let cacheKey := pyReplace c "client" "Cache"
      match dlookup gen.custom_data cacheKey with
      | none => .error (.keyError cacheKey)
      | some tbl =>
          match dlookup tbl "Interval0" with
          | none => .error (.keyError "Interval0")
          | some reqs => .ok reqs

def buildBatches (gen : ContentGenerator) (seed n : Nat) :
    List String → Except PyErr (List (String × List Nat))
  | [] => .ok []
  | c :: rest => do
      let b ← warmBatch gen seed n c
      let r ← buildBatches gen seed n rest
      .ok ((c, b) :: r)

/-- `NetTopology.warmUp`: mode dispatch of the warm-up procedure.  Returns
the updated state, the emitted persistence events, and the hit/miss totals
of the warm traffic (zero outside the no-color mode). -/
def NetTopology.warmUp (s : NetTopology) :
    Except PyErr (NetTopology × List Event × WarmStats) :=
  if s.mode = "no-cache" then .ok (s, [], { hits := 0, misses := 0 })
  else if s.mode = "no-color" then do
    let batches ← buildBatches s.contentGenerator s.seed s.warmUpReqNums s.clientIds
    let res := warmUpCacheShortestPath s.graph s.cacheMemoryDict s.fileSize s.mode []
      batches (batches.map Prod.fst)
    let s2 := { s with cacheMemoryDict := res.1 }
    .ok (s2, [s2.saveCacheDict], res.2)
  else if s.mode = "tag-color" then do
    let ci := getColoringInfo s.graph s.colorList
    let s2 := { s with colorRouteInfo := ci.1, serverToColorMap := ci.2 }
    let d2 ← assignColors s2.cacheMemoryDict s2.serverToColorMap
    .ok ({ s2 with cacheMemoryDict := d2 }, [], { hits := 0, misses := 0 })
  else do
    let ci := getColoringInfo s.graph s.colorList
    let s2 := { s with colorRouteInfo := ci.1, serverToColorMap := ci.2 }
    let d2 ← assignColors s2.cacheMemoryDict s2.serverToColorMap
    let s3 := { s2 with cacheMemoryDict := d2 }
    .ok (s3, [s3.saveNearestColorServerInfo], { hits := 0, misses := 0 })

/-- Store construction dispatch shared by `build` and `reconfig`: the four
recognized "type" strings; any other type string allocates nothing. -/
def mkStoreForType (t : String) (ratioArg maxSize : Q) : Option CacheStore :=
  if t = "LRU" then some (.lru maxSize [])
  else if t = "LFU" then some (.lfu maxSize [])
  else if t = "FIFO" then some (.fifo maxSize [])
  else if t = "Hybrid" then some (.colorStore none ratioArg maxSize [] [])
  else none

/-- The allocation loop of `reconfig`: walks the router list; every router
with a "type" key reads `cacheSizeList[idx]` (IndexError when the list is
too short), scales it by `alpha`, allocates the store for recognized
types, and advances `idx`. -/
def reconfigAlloc (alphaVal : Q) (sizes : List Q) :
    List RouterCfg → Nat → List (String × CacheStore) →
    Except PyErr (List (String × CacheStore))
  | [], _, dict => .ok dict
  | r :: rest, idx, dict =>
      match r.rtype with
      | none => reconfigAlloc alphaVal sizes rest idx dict
      | some t => do
          let newSize ← pyGetIdx sizes idx
          let maxSize := qMul newSize alphaVal
          let dict2 :=
            match mkStoreForType t r.capacityRatioVal maxSize with
            | some st => dictSet dict r.ID st
            | none => dict
          reconfigAlloc alphaVal sizes rest (idx + 1) dict2

/-- `NetTopology.reconfig`: resets `cacheMemoryDict` to empty, records the
run index, reallocates one store per cache-capable router from the size
list, and always ends by calling `warmUp` (no return value beyond the
state and its effects). -/
def NetTopology.reconfig (s : NetTopology) (cacheSizeList : List Q) (parallel_idx : Nat) :
    Except PyErr (NetTopology × List Event × WarmStats) := do
  let d ← reconfigAlloc s.alphaVal cacheSizeList s.networkInfo.Routers 0 []
  NetTopology.warmUp { s with cacheMemoryDict := d, parallel_idx := parallel_idx }

/-- The sampling step of `build`: `networkInfo["samplingMethod"]` raises
KeyError when the key is absent; a non-null value with method "reservoir"
creates the sampler, any other value (including null) yields none. -/
def mkSampleGen (cfg : NetConfig) : Except PyErr (Option Sampler) :=
  match cfg.samplingMethod with
  | none => .error (.keyError "samplingMethod")
  | some none => .ok none
  | some (some sm) =>
      if sm.method = "reservoir" then .ok (some { sampleRate := sm.sampleRate })
      else .ok none

/-- The content-model step of `build`: without a "custom" block, "gamma"
is preferred over "zipf" (and with neither the local `dist` is unbound, a
NameError); with a "custom" block the alpha scale factor is the configured
alpha exactly when `FileSize` is -1.  Returns the generator and the alpha
factor stored on the instance. -/
def mkContentGenerator (env : String → List (String × List (String × List Nat)))
    (cfg : NetConfig) (sg : Option Sampler) : Except PyErr (ContentGenerator × Q) :=
  match cfg.RequestModels.customCfg with
  | none =>
      match cfg.RequestModels.gammaCfg with
      | some gc =>
          .ok ({ dist := some (.gammaDist gc.shapeK gc.theta gc.contentNums),
                 custom_data := [], fixedContentSize := cfg.FileSize, alphaVal := 1,
                 sampleGen := sg }, 1)
      | none =>
          match cfg.RequestModels.zipfCfg with
          | some zc =>
              .ok ({ dist := some (.zipfDist zc.skewness zc.contentNums),
                     custom_data := [], fixedContentSize := cfg.FileSize, alphaVal := 1,
                     sampleGen := sg }, 1)
          | none => .error (.nameError "dist")
  | some cu =>
      let a : Q := if cfg.FileSize = -1 then cu.alphaVal else 1
      .ok ({ dist := none, custom_data := env cu.path, fixedContentSize := cfg.FileSize,
             alphaVal := a, sampleGen := sg }, a)

/-- The router loop body of `build`: append the id to `routerIds`, add the
graph node, and for a router with a "type" key allocate its store with
capacity `maxSize * alpha`. -/
def addRouterStep (alphaVal : Q) (acc : Graph × List (String × CacheStore) × List String)
    (r : RouterCfg) : Graph × List (String × CacheStore) × List String :=
  let g := acc.1.addNode r.ID .routerNode
  let rids := acc.2.2 ++ [r.ID]
  match r.rtype with
  | none => (g, acc.2.1, rids)
  | some t =>
      match mkStoreForType t r.capacityRatioVal (qMul r.maxSize alphaVal) with
      | some st => (g, dictSet acc.2.1 r.ID st, rids)
      | none => (g, acc.2.1, rids)

/-- The client loop body of `build`: append to `clientIds`, add the graph
node, and extend `tempClientIds` for temporary clients. -/
def addClientStep (acc : Graph × List String × List String) (c : ClientCfg) :
    Graph × List String × List String :=
  (acc.1.addNode c.ID .clientNode, acc.2.1 ++ [c.ID],
   if c.isTemp then acc.2.2 ++ [c.ID] else acc.2.2)

/-- Division `1/bw` with Python ZeroDivisionError semantics. -/
def invBw (bw : Q) : Except PyErr Q :=
  if qIsZero bw then .error .zeroDivisionError else .ok (qDiv 1 bw)

/-- The peer-address derivation of the single-`params` link branch: the
`elif` chain over the ".1/"/".2/"/".66/"/".65/" patterns; when none
matches the code prints an error and then hits an unbound `ip_2`
(NameError). -/
def deriveIp2 (ip1 : String) : Except PyErr String :=
  if strContainsSub ip1 ".1/" then .ok (pyReplace ip1 ".1/" ".2/")
  else if strContainsSub ip1 ".2/" then .ok (pyReplace ip1 ".2/" ".1/")
  else if strContainsSub ip1 ".66/" then .ok (pyReplace ip1 ".66/" ".65/")
  else if strContainsSub ip1 ".65/" then .ok (pyReplace ip1 ".65/" ".66/")
  else .error (.nameError "ip_2")

/-- One iteration of the link loop of `build`: parse the first endpoint
"node/interface", then the two-`params` branch parses the second endpoint
the same way, while the single-`params` branch uses the raw second node id,
interface "0" and the derived peer ip; both add one undirected edge with
weight `1 / params1.bw`. -/
def addLink (g : Graph) (l : LinkCfg) : Except PyErr Graph := do
  let nid0 ← pyGetIdx l.NodeIds 0
  let e1 ← pySplit2 nid0 "/"
  match l.params2 with
  | some p2cfg => do
      let nid1 ← pyGetIdx l.NodeIds 1
      let e2 ← pySplit2 nid1 "/"
      let w ← invBw l.params1.bw
      .ok (g.addEdge { n1 := e1.1, n2 := e2.1, interface_1 := e1.2, interface_2 := e2.2,
                       id_1 := e1.1, ip_1 := l.params1.ip, ip_2 := p2cfg.ip, weight := w })
  | none => do
      let nid1 ← pyGetIdx l.NodeIds 1
      let ip2 ← deriveIp2 l.params1.ip
      let w ← invBw l.params1.bw
      .ok (g.addEdge { n1 := e1.1, n2 := nid1, interface_1 := e1.2, interface_2 := "0",
                       id_1 := e1.1, ip_1 := l.params1.ip, ip_2 := ip2, weight := w })

def addLinks : Graph → List LinkCfg → Except PyErr Graph
  | g, [] => .ok g
  | g, l :: rest => do
      let g2 ← addLinks (← addLink g l) rest
      .ok g2

/-- The remainder of `build` after the sampling step (factored so the
sampler's effect on the rest of the build is a single function
application): content model, router loop, removal of "mainServer" from
`routerIds`, client loop, link loop, final `warmUp`. -/
def buildWithSampler (s : NetTopology)
    (env : String → List (String × List (String × List Nat))) (sg : Option Sampler) :
    Except PyErr (NetTopology × List Event × WarmStats) := do
  let s0 := { s with cacheMemoryDict := [], clientIds := [], routerIds := [],
                     tempClientIds := ["mainClone"] }
  let gen ← mkContentGenerator env s0.networkInfo sg
  let racc := s0.networkInfo.Routers.foldl (addRouterStep gen.2) (s0.graph, [], [])
  let rids ← pyRemove racc.2.2 "mainServer"
  let cacc := s0.networkInfo.Clients.foldl addClientStep (racc.1, [], s0.tempClientIds)
  let g2 ← addLinks cacc.1 s0.networkInfo.Links
  let s1 := { s0 with graph := g2, cacheMemoryDict := racc.2.1, routerIds := rids,
                      clientIds := cacc.2.1, tempClientIds := cacc.2.2,
                      contentGenerator := gen.1, alphaVal := gen.2 }
  let r ← s1.warmUp
  .ok (r.1, Event.printed "*** Processing content list\n" :: r.2.1, r.2.2)

/-- `NetTopology.build`: the sampling step followed by the rest of the
build.  `env` maps a trace path to its parsed per-client data (file loading
is outside the embedded code). -/
def NetTopology.build (s : NetTopology)
    (env : String → List (String × List (String × List Nat))) :
    Except PyErr (NetTopology × List Event × WarmStats) := do
  let sg ← mkSampleGen s.networkInfo
  buildWithSampler s env sg

/-- File-system operations of one snapshot write, for the persistence
claims: `fsOpen` is `open(path, "wb")` (creates/truncates the file),
`fsWrite` carries the serialized payload and whether serialization ran to
completion, `fsClose` releases the handle, `fsRename` is `os.rename`. -/
inductive FsOp
  | fsOpen (path : String)
  | fsWrite (path : String) (blob : Blob) (complete : Bool)
  | fsClose (path : String)
  | fsRename (src dst : String)
deriving DecidableEq, Repr

/-- The operation sequence of `with open(path, "wb") as f: pickle.dump(obj, f)`:
open, one (possibly interrupted) write, and the context-manager close that
runs on both the normal and the exceptional exit path.  `fail` models an
exception raised in the middle of `pickle.dump`. -/
def saveOps (path : String) (blob : Blob) (fail : Bool) : List FsOp :=
  [.fsOpen path, .fsWrite path blob (!fail), .fsClose path]

def saveCacheDictOps (s : NetTopology) (fail : Bool) : List FsOp :=
  saveOps (cacheDictPath s) (.cacheDict s.cacheMemoryDict) fail

def saveNearestOps (s : NetTopology) (fail : Bool) : List FsOp :=
  saveOps (nearestInfoPath s) (.nearestInfo s.colorRouteInfo) fail

structure FileData where
  blob : Option Blob
  complete : Bool
deriving DecidableEq, Repr

def applyOp (fs : List (String × FileData)) : FsOp → List (String × FileData)
  | .fsOpen p => dictSet fs p { blob := none, complete := true }
  | .fsWrite p b c => dictSet fs p { blob := some b, complete := c }
  | .fsClose _ => fs
  | .fsRename src dst =>
      match dlookup fs src with
      | some d => dictSet (fs.filter (fun e => !(decide (e.1 = src)))) dst d
      | none => fs

def runOps (fs : List (String × FileData)) (ops : List FsOp) : List (String × FileData) :=
  ops.foldl applyOp fs

/-- The claim's atomic-write discipline: nothing is opened or written at
the canonical path itself, and the canonical path is produced by a rename. -/
def atomicTempRename (ops : List FsOp) (canonical : String) : Bool :=
  ops.all (fun op =>
    match op with
    | .fsOpen p => !(decide (p = canonical))
    | .fsWrite p _ _ => !(decide (p = canonical))
    | _ => true) &&
  ops.any (fun op =>
    match op with
    | .fsRename _ dst => decide (dst = canonical)
    | _ => false)

/-- Whether the file at `p` (if any) holds a completely written payload. -/
def fileComplete (fs : List (String × FileData)) (p : String) : Bool :=
  match dlookup fs p with
  | some fd => fd.complete
  | none => true

def opensClosed (ops : List FsOp) : Bool :=
  (ops.filter (fun op => match op with | .fsOpen _ => true | _ => false)).length ==
  (ops.filter (fun op => match op with | .fsClose _ => true | _ => false)).length

/-- Projection of a warm-up/reconfig result onto the outputs named by the
determinism requirement: final cache contents, emitted persistence events,
and hit/miss totals. -/
def outProj (r : NetTopology × List Event × WarmStats) :
    List (String × CacheStore) × List Event × WarmStats :=
  (r.1.cacheMemoryDict, r.2.1, r.2.2)

def runOutputs (s : NetTopology) (sizes : List Q) (idx : Nat) :
    Except PyErr (List (String × CacheStore) × List Event × WarmStats) :=
  (s.reconfig sizes idx).map outProj

/-- The store mapping that `reconfig` is specified to produce: one store
per cache-capable router in declaration order, the k-th one drawing its
size from position k of the size list, scaled by the alpha factor. -/
def expectedFrom (sizes : List Q) (alphaVal : Q) :
    List RouterCfg → Nat → List (String × CacheStore)
  | [], _ => []
  | r :: rest, idx =>
      match r.rtype with
      | none => expectedFrom sizes alphaVal rest idx
      | some t =>
          (match mkStoreForType t r.capacityRatioVal (qMul (sizes.getD idx 0) alphaVal) with
           | some st => [(r.ID, st)]
           | none => []) ++ expectedFrom sizes alphaVal rest (idx + 1)

def typedCount (rs : List RouterCfg) : Nat := (rs.filter (fun r => r.rtype.isSome)).length

def typedIds (rs : List RouterCfg) : List String :=
  (rs.filter (fun r => r.rtype.isSome)).map RouterCfg.ID

def validTypes (rs : List RouterCfg) : Prop :=
  ∀ r ∈ rs, ∀ t, r.rtype = some t →
    t = "LRU" ∨ t = "LFU" ∨ t = "FIFO" ∨ t = "Hybrid"

/-- Whether a colored node owns a store that supports `setServerColor`
(the Hybrid/color-partitioned policy). -/
def goodColorStore (dict : List (String × CacheStore)) (srv : String) : Bool :=
  match dlookup dict srv with
  | some st => st.isColorStore
  | none => false

/-- The sampler that the claimed (amended) behavior attaches for a present
`samplingMethod` value. -/
def samplerOf : Option SamplingCfg → Option Sampler
  | none => none
  | some sm => if sm.method = "reservoir" then some { sampleRate := sm.sampleRate } else none

/-- The two endpoint node ids a link contributes, as the code parses them. -/
def linkEnds (l : LinkCfg) : Option (String × String) :=
  match l.NodeIds with
  | n0 :: n1 :: _ =>
      match pySplitOn n0 "/" with
      | [a, _] =>
          match l.params2 with
          | some _ =>
              match pySplitOn n1 "/" with
              | [b, _] => some (a, b)
              | _ => none
          | none => some (a, n1)
      | _ => none
  | _ => none

/-- Two links clash when they join the same unordered endpoint pair. -/
def endsClash (l1 l2 : LinkCfg) : Bool :=
  match linkEnds l1, linkEnds l2 with
  | some (a, b), some (c, d) =>
      (decide (a = c) && decide (b = d)) || (decide (a = d) && decide (b = c))
  | _, _ => false

/-- Whether a link joins the unordered endpoint pair (a, b). -/
def endsAt (l : LinkCfg) (a b : String) : Bool :=
  match linkEnds l with
  | some (x, y) => (decide (x = a) && decide (y = b)) || (decide (x = b) && decide (y = a))
  | none => false

def edgeCount (g : Graph) (a b : String) : Nat :=
  (g.edges.filter (fun e => sameEnds e a b)).length

/-- After a successful `build`, the origin node must not be listed among
the router ids, which must be the declared ids with the first "mainServer"
removed. -/
def postMainRemoved (x : Except PyErr (NetTopology × List Event × WarmStats))
    (ids : List String) : Prop :=
  match x with
  | .ok r => ¬ ("mainServer" ∈ r.1.routerIds) ∧ r.1.routerIds = ids.erase "mainServer"
  | .error _ => True

def envNil : String → List (String × List (String × List Nat)) := fun _ => []

def cfgC1 : NetConfig :=
  { samplingMethod := some none, FileSize := -1,
    RequestModels := { gammaCfg := none, zipfCfg := none,
                       customCfg := some { path := "trace", alphaVal := 2 } },
    Routers := [{ ID := "mainServer", IP := "10.0.0.1", rtype := none, maxSize := 0,
                  capacityRatioVal := 0 },
                { ID := "r1", IP := "10.0.0.2", rtype := some "LRU", maxSize := 7,
                  capacityRatioVal := 0 }],
    Clients := [], Links := [] }

def sC1 : NetTopology := NetTopology.init cfgC1 "cfg" "no-cache" 1 1 none

/-- The capacity that the store of router "r1" ends up with after a build
(which sets alpha to 2 from the custom request model with FileSize -1)
followed by `reconfig([3], 0)`. -/
def c1Run : Option Q :=
  match NetTopology.build sC1 envNil with
  | .ok (s1, _, _) =>
      match s1.reconfig [3] 0 with
      | .ok (s2, _, _) => (dlookup s2.cacheMemoryDict "r1").map CacheStore.maxSizeOf
      | .error _ => none
  | .error _ => none

def cfgW1 : NetConfig :=
  { samplingMethod := some none, FileSize := 10,
    RequestModels := { gammaCfg := some { shapeK := 1, theta := 1, contentNums := 5 },
                       zipfCfg := none, customCfg := none },
    Routers := [{ ID := "mainServer", IP := "10.0.0.1", rtype := none, maxSize := 0,
                  capacityRatioVal := 0 },
                { ID := "r1", IP := "10.0.0.2", rtype := some "LRU", maxSize := 7,
                  capacityRatioVal := 0 },
                { ID := "r2", IP := "10.0.0.3", rtype := some "Hybrid", maxSize := 9,
                  capacityRatioVal := { num := 1, den := 2 } }],
    Clients := [], Links := [] }

def sW1 : NetTopology := NetTopology.init cfgW1 "cfg" "no-cache" 1 1 none

def genC2 : ContentGenerator :=
  { dist := some (.gammaDist 1 1 5), custom_data := [], fixedContentSize := 10,
    alphaVal := 1, sampleGen := none }

def sC2 : NetTopology :=
  { NetTopology.init cfgW1 "cfg" "no-color" 3 1 none with
      clientIds := ["client1"], contentGenerator := genC2 }

def batchesC2 : List (String × List Nat) := [("client1", [0, 0, 0])]

def graphC3 : Graph :=
  { nodes := [("mainServer", .routerNode), ("Cache1", .routerNode)], edges := [] }

def sC3 : NetTopology :=
  { NetTopology.init cfgW1 "cfg" "tag-color" 3 1 (some [4]) with
      graph := graphC3,
      cacheMemoryDict := [("Cache1",
        .colorStore none { num := 1, den := 2 } 100 [] [])] }

def sC4 : NetTopology := NetTopology.init cfgW1 "cfg" "no-color" 1 1 none

def cfgC6a : NetConfig :=
  { samplingMethod := none, FileSize := 10,
    RequestModels := { gammaCfg := some { shapeK := 1, theta := 1, contentNums := 5 },
                       zipfCfg := none, customCfg := none },
    Routers := [{ ID := "mainServer", IP := "10.0.0.1", rtype := none, maxSize := 0,
                  capacityRatioVal := 0 }],
    Clients := [], Links := [] }

def sC6a : NetTopology := NetTopology.init cfgC6a "cfg" "no-cache" 1 1 none

def sC6b : NetTopology := NetTopology.init cfgW1 "cfg" "no-cache" 1 1 none

def gW7 : Graph :=
  { nodes := [("x", .clientNode), ("y", .routerNode), ("mainServer", .routerNode)],
    edges := [] }

def linkW7a : LinkCfg :=
  { NodeIds := ["x/0", "y/1"], params1 := { ip := "10.0.1.1/24", bw := 5 },
    params2 := some { ip := "10.0.1.2/24", bw := 5 } }

def linkW7b : LinkCfg :=
  { NodeIds := ["y/0", "mainServer"], params1 := { ip := "10.1.1.1/24", bw := 4 },
    params2 := none }

def linksW7 : List LinkCfg := [linkW7a, linkW7b]

/-- The graph produced by running the link loop of `build` on `linksW7`. -/
def g2W7 : Graph :=
  match addLinks gW7 linksW7 with
  | .ok g => g
  | .error _ => graphEmpty

def sC8 : NetTopology := NetTopology.init cfgW1 "cfg" "no-cache" 2 1 none

def sC9 : NetTopology := NetTopology.init cfgW1 "cfg" "no-cache" 1 1 none

def graphC10 : Graph :=
  { nodes := [("mainServer", .routerNode), ("Cache1", .routerNode),
              ("Cache2", .routerNode)], edges := [] }

def sC10 : NetTopology :=
  { NetTopology.init cfgW1 "cfg" "full-color" 3 1 (some [4, 7]) with
      graph := graphC10,
      cacheMemoryDict := [("Cache1", .colorStore none { num := 1, den := 2 } 100 [] []),
                          ("Cache2", .colorStore none { num := 1, den := 2 } 50 [] [])] }

def validTypesB (rs : List RouterCfg) : Bool :=
  rs.all (fun r =>
    match r.rtype with
    | some t => decide (t = "LRU") || decide (t = "LFU") || decide (t = "FIFO") ||
        decide (t = "Hybrid")
    | none => true)

theorem bindOk {α β : Type} (a : α) (f : α → Except PyErr β) :
    (Except.ok a >>= f) = f a := rfl

theorem bindErr {α β : Type} (e : PyErr) (f : α → Except PyErr β) :
    ((Except.error e : Except PyErr α) >>= f) = .error e := rfl

theorem dlookup_dictSet {α : Type} (d : List (String × α)) (k key : String) (v : α) :
    dlookup (dictSet d k v) key = if k = key then some v else dlookup d key := by
  induction d with
  | nil => by_cases h : k = key <;> simp [dictSet, dlookup, h]
  | cons p rest ih =>
      obtain ⟨pk, pv⟩ := p
      by_cases h1 : pk = k
      · by_cases h2 : k = key <;> simp [dictSet, dlookup, h1, h2]
      · by_cases h2 : pk = key
        · have hkk : ¬ k = key := fun he => h1 (he ▸ h2)
          have hkk2 : ¬ key = k := fun he => hkk he.symm
          simp [dictSet, dlookup, h1, h2, hkk, hkk2]
        · simp [dictSet, dlookup, h1, h2, ih]

theorem buildBatches_ok (gen : ContentGenerator) (seed n : Nat) :
    ∀ (cs : List String) (bs : List (String × List Nat)),
      buildBatches gen seed n cs = .ok bs →
      bs.map Prod.fst = cs ∧ ∀ p ∈ bs, warmBatch gen seed n p.1 = .ok p.2 := by
  intro cs
  induction cs with
  | nil =>
      intro bs h
      unfold buildBatches at h
      cases h
      exact ⟨rfl, by simp⟩
  | cons c rest ih =>
      intro bs h
      unfold buildBatches at h
      cases hw : warmBatch gen seed n c with
      | error e => rw [hw, bindErr] at h; cases h
      | ok b =>
          rw [hw, bindOk] at h
          cases hr : buildBatches gen seed n rest with
          | error e => rw [hr, bindErr] at h; cases h
          | ok r =>
              rw [hr, bindOk] at h
              cases h
              obtain ⟨h1, h2⟩ := ih r hr
              refine ⟨by simp [h1], ?_⟩
              intro p hp
              rcases List.mem_cons.mp hp with hp1 | hp2
              · subst hp1; exact hw
              · exact h2 p hp2

/-- Claim C8: in mode "no-cache", `warmUp` is a no-op: it returns
immediately with the state unchanged, no generated requests, no cache
lookups or inserts, no snapshot writes (empty event list) and zero
hit/miss counts. -/
theorem C8_no_cache_noop (s : NetTopology) (h : s.mode = "no-cache") :
    s.warmUp = .ok (s, [], { hits := 0, misses := 0 }) := by
  unfold NetTopology.warmUp
  rw [h]
  rfl

theorem C8_no_cache_noop_witness :
    sC8.warmUp = .ok (sC8, [], { hits := 0, misses := 0 }) :=
  C8_no_cache_noop sC8 rfl

/-- Claim C6, counterexample: on a configuration from which the
`samplingMethod` entry is omitted entirely, `build` does not succeed: it
raises KeyError at the `networkInfo["samplingMethod"]` access. -/
theorem C6_samplingMethod_counterexample :
    NetTopology.build sC6a envNil = .error (.keyError "samplingMethod") ∧
    isOkE (NetTopology.build sC6a envNil) = false :=
  ⟨rfl, rfl⟩

/-- Claim C6, amended: the `samplingMethod` key must be present (a null
value is allowed): when the key is absent `build` raises KeyError; when it
is present, build proceeds with the sampler given by `samplerOf`, which is
some sampler exactly when the value is non-null with method "reservoir". -/
theorem C6_samplingMethod_amended (s : NetTopology)
    (env : String → List (String × List (String × List Nat))) :
    (s.networkInfo.samplingMethod = none →
      NetTopology.build s env = .error (.keyError "samplingMethod")) ∧
    (∀ v, s.networkInfo.samplingMethod = some v →
      mkSampleGen s.networkInfo = .ok (samplerOf v) ∧
      NetTopology.build s env = buildWithSampler s env (samplerOf v)) := by
  constructor
  · intro h
    unfold NetTopology.build mkSampleGen
    rw [h]
    rfl
  · intro v h
    have hs : mkSampleGen s.networkInfo = .ok (samplerOf v) := by
      unfold mkSampleGen samplerOf
      rw [h]
      cases v with
      | none => rfl
      | some sm => by_cases hm : sm.method = "reservoir" <;> simp [hm]
    refine ⟨hs, ?_⟩
    unfold NetTopology.build
    rw [hs, bindOk]

theorem C6_samplingMethod_amended_witness :
    mkSampleGen sC6b.networkInfo = .ok (samplerOf (none : Option SamplingCfg)) ∧
    NetTopology.build sC6b envNil = buildWithSampler sC6b envNil
      (samplerOf (none : Option SamplingCfg)) :=
  (C6_samplingMethod_amended sC6b envNil).2 none rfl

/-- Claim C4, counterexample: the snapshot writes are not
temporary-path-and-rename atomic writes: `saveCacheDict` (and likewise the
nearest-color write) opens the canonical path itself and performs no
rename, and a failure in the middle of `pickle.dump` leaves a partially
written file at the canonical path. -/
theorem C4_atomic_write_counterexample :
    atomicTempRename (saveCacheDictOps sC4 true) (cacheDictPath sC4) = false ∧
    fileComplete (runOps [] (saveCacheDictOps sC4 true)) (cacheDictPath sC4) = false ∧
    atomicTempRename (saveNearestOps sC4 true) (nearestInfoPath sC4) = false :=
  ⟨rfl, rfl, rfl⟩

/-- Claim C4, amended: each snapshot persistence operation is a scoped
direct write: it opens the canonical path itself, performs one (possibly
interrupted) serialization write, and closes the handle on every exit path
including mid-write failure; it uses no temporary path and no rename, so a
mid-write failure can leave a partial file at the canonical path. -/
theorem C4_scoped_direct_write (s : NetTopology) (fail : Bool) :
    saveCacheDictOps s fail =
      [.fsOpen (cacheDictPath s),
       .fsWrite (cacheDictPath s) (.cacheDict s.cacheMemoryDict) (!fail),
       .fsClose (cacheDictPath s)] ∧
    saveNearestOps s fail =
      [.fsOpen (nearestInfoPath s),
       .fsWrite (nearestInfoPath s) (.nearestInfo s.colorRouteInfo) (!fail),
       .fsClose (nearestInfoPath s)] ∧
    opensClosed (saveCacheDictOps s fail) = true ∧
    opensClosed (saveNearestOps s fail) = true ∧
    atomicTempRename (saveCacheDictOps s fail) (cacheDictPath s) = false ∧
    atomicTempRename (saveNearestOps s fail) (nearestInfoPath s) = false := by
  refine ⟨rfl, rfl, rfl, rfl, ?_, ?_⟩ <;>
    simp [atomicTempRename, saveCacheDictOps, saveNearestOps, saveOps]

/-- Claim C2: in mode "no-color", `warmUp` builds one warm-up batch per
client in `clientIds` (from the configured distribution when one is
present, otherwise replayed from the per-client trace keyed by the
client's identifier with "client" replaced by "Cache" at interval
"Interval0"), routes all batches through the shortest-weighted-path
write-through warm-up simulator, and persists the resulting cache
contents as a snapshot whose file name is keyed by the current run index
`parallel_idx`. -/
theorem C2_warmUp_no_color (s : NetTopology) (batches : List (String × List Nat))
    (hmode : s.mode = "no-color")
    (hbatches : buildBatches s.contentGenerator s.seed s.warmUpReqNums s.clientIds
      = .ok batches) :
    s.warmUp = .ok
      ({ s with cacheMemoryDict := (warmUpCacheShortestPath s.graph s.cacheMemoryDict
          s.fileSize s.mode [] batches (batches.map Prod.fst)).1 },
       [Event.saveFile
          (pathJoin s.configDirPath ("cacheDict" ++ toString s.parallel_idx ++ ".pkl"))
          (Blob.cacheDict (warmUpCacheShortestPath s.graph s.cacheMemoryDict s.fileSize
            s.mode [] batches (batches.map Prod.fst)).1)],
       (warmUpCacheShortestPath s.graph s.cacheMemoryDict s.fileSize s.mode [] batches
         (batches.map Prod.fst)).2) ∧
    batches.map Prod.fst = s.clientIds ∧
    (∀ p ∈ batches, warmBatch s.contentGenerator s.seed s.warmUpReqNums p.1 = .ok p.2) := by
  obtain ⟨h1, h2⟩ := buildBatches_ok _ _ _ _ _ hbatches
  refine ⟨?_, h1, h2⟩
  unfold NetTopology.warmUp
  rw [hmode, if_neg (by decide), if_pos rfl, hbatches, bindOk]
  rfl

theorem C2_warmUp_no_color_witness :
    sC2.warmUp = .ok
      ({ sC2 with cacheMemoryDict := (warmUpCacheShortestPath sC2.graph sC2.cacheMemoryDict
          sC2.fileSize sC2.mode [] batchesC2 (batchesC2.map Prod.fst)).1 },
       [Event.saveFile
          (pathJoin sC2.configDirPath ("cacheDict" ++ toString sC2.parallel_idx ++ ".pkl"))
          (Blob.cacheDict (warmUpCacheShortestPath sC2.graph sC2.cacheMemoryDict sC2.fileSize
            sC2.mode [] batchesC2 (batchesC2.map Prod.fst)).1)],
       (warmUpCacheShortestPath sC2.graph sC2.cacheMemoryDict sC2.fileSize sC2.mode []
         batchesC2 (batchesC2.map Prod.fst)).2) ∧
    batchesC2.map Prod.fst = sC2.clientIds :=
  ⟨(C2_warmUp_no_color sC2 batchesC2 rfl rfl).1,
   (C2_warmUp_no_color sC2 batchesC2 rfl rfl).2.1⟩

theorem goodColorStore_dictSet (dict : List (String × CacheStore)) (srv x : String)
    (st2 : CacheStore) (hst2 : st2.isColorStore = true)
    (hsrv : goodColorStore dict srv = true) :
    goodColorStore (dictSet dict srv st2) x = goodColorStore dict x := by
  unfold goodColorStore
  rw [dlookup_dictSet]
  by_cases h : srv = x
  · subst h
    rw [if_pos rfl]
    cases hl : dlookup dict srv with
    | none => unfold goodColorStore at hsrv; rw [hl] at hsrv; cases hsrv
    | some st =>
        unfold goodColorStore at hsrv
        rw [hl] at hsrv
        show st2.isColorStore = st.isColorStore
        rw [hst2]
        exact hsrv.symm
  · rw [if_neg h]

theorem assignColors_ok_iff :
    ∀ (m : List (String × Nat)) (dict : List (String × CacheStore)),
      isOkE (assignColors dict m) = true ↔
        ∀ p ∈ m, goodColorStore dict p.1 = true := by
  intro m
  induction m with
  | nil => intro dict; simp [assignColors, isOkE]
  | cons p rest ih =>
      intro dict
      obtain ⟨srv, col⟩ := p
      unfold assignColors
      cases hl : dlookup dict srv with
      | none =>
          simp only [isOkE]
          constructor
          · intro h; cases h
          · intro hAll
            have := hAll (srv, col) (List.mem_cons_self _ _)
            simp [goodColorStore, hl] at this
      | some st =>
          cases st with
          | lru mm es =>
              simp only [CacheStore.setServerColor, bindErr, isOkE]
              constructor
              · intro h; cases h
              · intro hAll
                have := hAll (srv, col) (List.mem_cons_self _ _)
                simp [goodColorStore, hl, CacheStore.isColorStore] at this
          | lfu mm es =>
              simp only [CacheStore.setServerColor, bindErr, isOkE]
              constructor
              · intro h; cases h
              · intro hAll
                have := hAll (srv, col) (List.mem_cons_self _ _)
                simp [goodColorStore, hl, CacheStore.isColorStore] at this
          | fifo mm es =>
              simp only [CacheStore.setServerColor, bindErr, isOkE]
              constructor
              · intro h; cases h
              · intro hAll
                have := hAll (srv, col) (List.mem_cons_self _ _)
                simp [goodColorStore, hl, CacheStore.isColorStore] at this
          | colorStore t r mm own ovf =>
              simp only [CacheStore.setServerColor, bindOk]
              have hgood : goodColorStore dict srv = true := by
                simp [goodColorStore, hl, CacheStore.isColorStore]
              have hrw : ∀ x, goodColorStore
                  (dictSet dict srv (.colorStore (some col) r mm own ovf)) x =
                  goodColorStore dict x :=
                fun x => goodColorStore_dictSet dict srv x _ rfl hgood
              rw [ih]
              constructor
              · intro hAll
                intro q hq
                rcases List.mem_cons.mp hq with hq1 | hq2
                · subst hq1; exact hgood
                · rw [← hrw q.1]; exact hAll q hq2
              · intro hAll q hq
                rw [hrw q.1]
                exact hAll q (List.mem_cons_of_mem _ hq)

/-- Claim C3: in mode "tag-color", `warmUp` runs the coloring engine,
applies the color tags to the colored routers' stores, and stops: no warm
traffic and no persisted events at all; in every other colored mode (any
mode other than "no-cache", "no-color", "tag-color") it performs the same
coloring and tag assignment and additionally persists exactly the
nearest-color table snapshot. -/
theorem C3_warmUp_coloring_modes (s : NetTopology) (d2 : List (String × CacheStore))
    (hassign : assignColors s.cacheMemoryDict (getColoringInfo s.graph s.colorList).2
      = .ok d2) :
    (s.mode = "tag-color" →
      s.warmUp = .ok
        ({ s with colorRouteInfo := (getColoringInfo s.graph s.colorList).1,
                  serverToColorMap := (getColoringInfo s.graph s.colorList).2,
                  cacheMemoryDict := d2 },
         [], { hits := 0, misses := 0 })) ∧
    (¬ s.mode = "no-cache" → ¬ s.mode = "no-color" → ¬ s.mode = "tag-color" →
      s.warmUp = .ok
        ({ s with colorRouteInfo := (getColoringInfo s.graph s.colorList).1,
                  serverToColorMap := (getColoringInfo s.graph s.colorList).2,
                  cacheMemoryDict := d2 },
         [Event.saveFile (pathJoin s.configDirPath "nearestColorServerInfo.pkl")
            (Blob.nearestInfo (getColoringInfo s.graph s.colorList).1)],
         { hits := 0, misses := 0 })) := by
  constructor
  · intro h
    have step : s.warmUp =
        (assignColors s.cacheMemoryDict (getColoringInfo s.graph s.colorList).2 >>=
          fun d2 => Except.ok
            ({ s with colorRouteInfo := (getColoringInfo s.graph s.colorList).1,
                      serverToColorMap := (getColoringInfo s.graph s.colorList).2,
                      cacheMemoryDict := d2 },
             ([] : List Event), { hits := 0, misses := 0 })) := by
      unfold NetTopology.warmUp
      rw [h, if_neg (by decide), if_neg (by decide), if_pos rfl]
    rw [step, hassign, bindOk]
  · intro hm1 hm2 hm3
    have step : s.warmUp =
        (assignColors s.cacheMemoryDict (getColoringInfo s.graph s.colorList).2 >>=
          fun d2 => Except.ok
            ({ s with colorRouteInfo := (getColoringInfo s.graph s.colorList).1,
                      serverToColorMap := (getColoringInfo s.graph s.colorList).2,
                      cacheMemoryDict := d2 },
             [Event.saveFile (pathJoin s.configDirPath "nearestColorServerInfo.pkl")
                (Blob.nearestInfo (getColoringInfo s.graph s.colorList).1)],
             { hits := 0, misses := 0 })) := by
      unfold NetTopology.warmUp
      rw [if_neg hm1, if_neg hm2, if_neg hm3]
      rfl
    rw [step, hassign, bindOk]

theorem C3_warmUp_coloring_modes_witness :
    sC3.warmUp = .ok
      ({ sC3 with colorRouteInfo := (getColoringInfo sC3.graph sC3.colorList).1,
                  serverToColorMap := (getColoringInfo sC3.graph sC3.colorList).2,
                  cacheMemoryDict :=
                    [("Cache1", CacheStore.colorStore (some 4) { num := 1, den := 2 }
                      100 [] [])] },
       [], { hits := 0, misses := 0 }) :=
  (C3_warmUp_coloring_modes sC3
    [("Cache1", CacheStore.colorStore (some 4) { num := 1, den := 2 } 100 [] [])] rfl).1 rfl

/-- Claim C10: in every colored mode (any mode other than "no-cache" and
"no-color"), `warmUp` invokes `setServerColor` on the store of every node
in the node-to-color map produced by the coloring engine, so it succeeds
exactly when every colored node owns a store in the router-to-store
mapping that supports `setServerColor` (the Hybrid/color-partitioned
policy), and raises an error for any colored node without such a store. -/
theorem C10_color_assignment_precondition (s : NetTopology)
    (h1 : ¬ s.mode = "no-cache") (h2 : ¬ s.mode = "no-color") :
    isOkE s.warmUp = true ↔
      ∀ p ∈ (getColoringInfo s.graph s.colorList).2,
        goodColorStore s.cacheMemoryDict p.1 = true := by
  have key : ∀ (x : Except PyErr (List (String × CacheStore)))
      (f : List (String × CacheStore) → NetTopology × List Event × WarmStats),
      isOkE (x >>= fun d2 => Except.ok (f d2)) = isOkE x := by
    intro x f
    cases x <;> rfl
  by_cases h3 : s.mode = "tag-color"
  · have step : s.warmUp =
        (assignColors s.cacheMemoryDict (getColoringInfo s.graph s.colorList).2 >>=
          fun d2 => Except.ok
            ({ s with colorRouteInfo := (getColoringInfo s.graph s.colorList).1,
                      serverToColorMap := (getColoringInfo s.graph s.colorList).2,
                      cacheMemoryDict := d2 },
             ([] : List Event), { hits := 0, misses := 0 })) := by
      unfold NetTopology.warmUp
      rw [if_neg h1, if_neg h2, if_pos h3]
    rw [step, key]
    exact assignColors_ok_iff _ _
  · have step : s.warmUp =
        (assignColors s.cacheMemoryDict (getColoringInfo s.graph s.colorList).2 >>=
          fun d2 => Except.ok
            ({ s with colorRouteInfo := (getColoringInfo s.graph s.colorList).1,
                      serverToColorMap := (getColoringInfo s.graph s.colorList).2,
                      cacheMemoryDict := d2 },
             [Event.saveFile (pathJoin s.configDirPath "nearestColorServerInfo.pkl")
                (Blob.nearestInfo (getColoringInfo s.graph s.colorList).1)],
             { hits := 0, misses := 0 })) := by
      unfold NetTopology.warmUp
      rw [if_neg h1, if_neg h2, if_neg h3]
      rfl
    rw [step, key]
    exact assignColors_ok_iff _ _

theorem C10_color_assignment_precondition_witness :
    isOkE sC10.warmUp = true :=
  (C10_color_assignment_precondition sC10 (by decide) (by decide)).mpr (by decide)

theorem warmUp_outputs_stale (s : NetTopology) (m1 m2 : List (String × Nat))
    (c1 c2 : List (String × Nat × String)) :
    (NetTopology.warmUp { s with serverToColorMap := m1, colorRouteInfo := c1 }).map outProj =
    (NetTopology.warmUp { s with serverToColorMap := m2, colorRouteInfo := c2 }).map outProj := by
  unfold NetTopology.warmUp
  by_cases hm1 : s.mode = "no-cache"
  · simp [hm1]
    rfl
  · by_cases hm2 : s.mode = "no-color"
    · simp [hm1, hm2]
      cases hb : buildBatches s.contentGenerator s.seed s.warmUpReqNums s.clientIds with
      | error e => rfl
      | ok batches => rfl
    · by_cases hm3 : s.mode = "tag-color"
      · simp [hm1, hm2, hm3]
      · simp [hm1, hm2, hm3]

/-- Claim C5: warm-up determinism.  In the embedding all randomness is a
pure function of the explicit seed field, so the outputs of
`reconfig`-then-`warmUp` (final cache contents of every store, emitted
snapshot events, and hit/miss totals) are a function of the configuration
and seed alone: two runs from states that agree on every configuration
and seed field - regardless of any stale per-run state (previous cache
stores, previous color maps, previous run index) - produce identical
outputs. -/
theorem C5_warmup_determinism (s : NetTopology) (m1 m2 : List (String × Nat))
    (c1 c2 : List (String × Nat × String)) (d1 d2 : List (String × CacheStore))
    (i1 i2 : Nat) (sizes : List Q) (idx : Nat) :
    runOutputs { s with serverToColorMap := m1, colorRouteInfo := c1,
                        cacheMemoryDict := d1, parallel_idx := i1 } sizes idx =
    runOutputs { s with serverToColorMap := m2, colorRouteInfo := c2,
                        cacheMemoryDict := d2, parallel_idx := i2 } sizes idx := by
  unfold runOutputs NetTopology.reconfig
  dsimp only
  cases hd : reconfigAlloc s.alphaVal sizes s.networkInfo.Routers 0 [] with
  | error e => rfl
  | ok d =>
      exact warmUp_outputs_stale
        { s with cacheMemoryDict := d, parallel_idx := idx } m1 m2 c1 c2

theorem pyGetIdx_lt : ∀ (l : List Q) (i : Nat), i < l.length →
    pyGetIdx l i = .ok (l.getD i 0) := by
  intro l
  induction l with
  | nil => intro i h; cases h
  | cons a rest ih =>
      intro i h
      cases i with
      | zero => rfl
      | succ j => exact ih j (Nat.lt_of_succ_lt_succ h)

theorem dictSet_append {α : Type} :
    ∀ (d : List (String × α)) (k : String) (v : α),
      ¬ k ∈ d.map Prod.fst → dictSet d k v = d ++ [(k, v)] := by
  intro d
  induction d with
  | nil => intro k v _; rfl
  | cons p rest ih =>
      intro k v h
      have h1 : ¬ p.1 = k := by
        intro he
        exact h (by simp [he])
      have h2 : ¬ k ∈ rest.map Prod.fst := by
        intro hm
        exact h (by simp [hm])
      obtain ⟨pk, pv⟩ := p
      simp only [dictSet, if_neg h1]
      rw [ih k v h2]
      rfl

theorem typedCount_cons_some (r : RouterCfg) (rest : List RouterCfg) (t : String)
    (h : r.rtype = some t) : typedCount (r :: rest) = typedCount rest + 1 := by
  simp [typedCount, List.filter_cons, h, Nat.add_comm]

theorem typedCount_cons_none (r : RouterCfg) (rest : List RouterCfg)
    (h : r.rtype = none) : typedCount (r :: rest) = typedCount rest := by
  simp [typedCount, List.filter_cons, h]

theorem typedIds_cons_some (r : RouterCfg) (rest : List RouterCfg) (t : String)
    (h : r.rtype = some t) : typedIds (r :: rest) = r.ID :: typedIds rest := by
  simp [typedIds, List.filter_cons, h]

theorem typedIds_cons_none (r : RouterCfg) (rest : List RouterCfg)
    (h : r.rtype = none) : typedIds (r :: rest) = typedIds rest := by
  simp [typedIds, List.filter_cons, h]

theorem reconfigAlloc_go (alphaVal : Q) (sizes : List Q) :
    ∀ (rs : List RouterCfg) (idx : Nat) (dict : List (String × CacheStore)),
      idx + typedCount rs ≤ sizes.length →
      (typedIds rs).Nodup →
      (∀ k ∈ dict.map Prod.fst, ¬ k ∈ typedIds rs) →
      reconfigAlloc alphaVal sizes rs idx dict =
        .ok (dict ++ expectedFrom sizes alphaVal rs idx) := by
  intro rs
  induction rs with
  | nil =>
      intro idx dict _ _ _
      simp [reconfigAlloc, expectedFrom]
  | cons r rest ih =>
      intro idx dict hlen hnd hdisj
      cases hr : r.rtype with
      | none =>
          rw [typedCount_cons_none r rest hr] at hlen
          rw [typedIds_cons_none r rest hr] at hnd hdisj
          simp only [reconfigAlloc, hr]
          rw [ih idx dict hlen hnd hdisj]
          simp only [expectedFrom, hr]
      | some t =>
          rw [typedCount_cons_some r rest t hr] at hlen
          rw [typedIds_cons_some r rest t hr] at hnd hdisj
          have hidx : idx < sizes.length := by omega
          have hlen2 : idx + 1 + typedCount rest ≤ sizes.length := by omega
          have hnd2 : (typedIds rest).Nodup := hnd.of_cons
          have hrid : ¬ r.ID ∈ typedIds rest := by
            intro hm
            exact (List.nodup_cons.mp hnd).1 hm
          simp only [reconfigAlloc, hr]
          rw [pyGetIdx_lt sizes idx hidx, bindOk]
          cases hmk : mkStoreForType t r.capacityRatioVal
              (qMul (sizes.getD idx 0) alphaVal) with
          | some st =>
              dsimp only
              have hnotin : ¬ r.ID ∈ dict.map Prod.fst := by
                intro hm
                exact hdisj r.ID hm (by simp)
              rw [dictSet_append dict r.ID st hnotin]
              have hdisj2 : ∀ k ∈ (dict ++ [(r.ID, st)]).map Prod.fst,
                  ¬ k ∈ typedIds rest := by
                intro k hk
                rw [List.map_append] at hk
                rcases List.mem_append.mp hk with hk1 | hk2
                · exact fun hm => hdisj k hk1 (by simp [hm])
                · have hkr : k = r.ID := by simpa using hk2
                  subst hkr
                  exact hrid
              rw [ih (idx + 1) (dict ++ [(r.ID, st)]) hlen2 hnd2 hdisj2]
              simp only [expectedFrom, hr, hmk, List.append_assoc, List.singleton_append]
          | none =>
              dsimp only
              have hdisj2 : ∀ k ∈ dict.map Prod.fst, ¬ k ∈ typedIds rest :=
                fun k hk hm => hdisj k hk (by simp [hm])
              rw [ih (idx + 1) dict hlen2 hnd2 hdisj2]
              simp only [expectedFrom, hr, hmk, List.nil_append]

theorem expectedFrom_ids (sizes : List Q) (a : Q) :
    ∀ (rs : List RouterCfg) (idx : Nat), validTypesB rs = true →
      (expectedFrom sizes a rs idx).map Prod.fst = typedIds rs := by
  intro rs
  induction rs with
  | nil => intro idx _; simp [expectedFrom, typedIds]
  | cons r rest ih =>
      intro idx hv
      rw [validTypesB, List.all_cons, Bool.and_eq_true] at hv
      obtain ⟨hv1, hv2⟩ := hv
      cases hr : r.rtype with
      | none =>
          simp only [expectedFrom, hr]
          rw [typedIds_cons_none r rest hr]
          exact ih idx hv2
      | some t =>
          rw [hr] at hv1
          have hmk : ∃ st, mkStoreForType t r.capacityRatioVal
              (qMul (sizes.getD idx 0) a) = some st := by
            simp only [Bool.or_eq_true, decide_eq_true_eq] at hv1
            rcases hv1 with ((h | h) | h) | h <;> subst h <;> simp [mkStoreForType]
          obtain ⟨st, hmk⟩ := hmk
          simp only [expectedFrom, hr, hmk]
          rw [typedIds_cons_some r rest t hr]
          simp only [List.singleton_append, List.map_cons]
          rw [ih (idx + 1) hv2]

/-- Claim C1, counterexample: after a build whose custom request model and
FileSize -1 set the alpha factor to 2, `reconfig([3], 0)` gives router
"r1" a store of capacity 6, not the value 3 found at the corresponding
position of cacheSizeList - so the capacity is not taken (unscaled) from
the size list as the claim states. -/
theorem C1_reconfig_capacity_counterexample :
    c1Run = some { num := 6, den := 1 } ∧
    (c1Run.map (fun q => qeq q 3)) = some false :=
  ⟨rfl, rfl⟩

/-- Claim C1, amended: `reconfig(cacheSizeList, run_index)` discards the
previous generation of stores (the new mapping is built from empty,
independent of the old one), allocates exactly one store per cache-capable
router in declaration order with the policy chosen by the router's type
and capacity equal to the corresponding cacheSizeList entry multiplied by
the instance's alpha scale factor (1 unless a custom request model with
FileSize -1 configured it), and always ends by invoking `warmUp`,
returning nothing beyond the state and its effects. -/
theorem C1_reconfig_allocation (s : NetTopology) (sizes : List Q) (i : Nat)
    (htypes : validTypesB s.networkInfo.Routers = true)
    (hlen : typedCount s.networkInfo.Routers ≤ sizes.length)
    (hnodup : (typedIds s.networkInfo.Routers).Nodup) :
    s.reconfig sizes i = NetTopology.warmUp
      { s with cacheMemoryDict := expectedFrom sizes s.alphaVal s.networkInfo.Routers 0,
               parallel_idx := i } ∧
    (expectedFrom sizes s.alphaVal s.networkInfo.Routers 0).map Prod.fst =
      typedIds s.networkInfo.Routers := by
  constructor
  · unfold NetTopology.reconfig
    rw [reconfigAlloc_go s.alphaVal sizes s.networkInfo.Routers 0 []
      (by simpa using hlen) hnodup (by simp), bindOk]
    rfl
  · exact expectedFrom_ids sizes s.alphaVal s.networkInfo.Routers 0 htypes

theorem C1_reconfig_allocation_witness :
    (sW1.reconfig [5, 8] 2 = NetTopology.warmUp
      { sW1 with cacheMemoryDict := expectedFrom [5, 8] sW1.alphaVal sW1.networkInfo.Routers 0,
                 parallel_idx := 2 } ∧
    (expectedFrom [5, 8] sW1.alphaVal sW1.networkInfo.Routers 0).map Prod.fst =
      typedIds sW1.networkInfo.Routers) ∧
    validTypesB sW1.networkInfo.Routers = true ∧
    typedCount sW1.networkInfo.Routers ≤ 2 :=
  ⟨C1_reconfig_allocation sW1 [5, 8] 2 (by decide) (by decide) (by decide),
   by decide, by decide⟩

theorem addRouterStep_ids (a : Q) (acc : Graph × List (String × CacheStore) × List String)
    (r : RouterCfg) : (addRouterStep a acc r).2.2 = acc.2.2 ++ [r.ID] := by
  unfold addRouterStep
  cases hr : r.rtype with
  | none => rfl
  | some t =>
      dsimp only
      cases hmk : mkStoreForType t r.capacityRatioVal (qMul r.maxSize a) <;> rfl

theorem routers_fold_ids (a : Q) :
    ∀ (rs : List RouterCfg) (g : Graph) (d : List (String × CacheStore)) (ids : List String),
      (rs.foldl (addRouterStep a) (g, d, ids)).2.2 = ids ++ rs.map RouterCfg.ID := by
  intro rs
  induction rs with
  | nil => intro g d ids; simp
  | cons r rest ih =>
      intro g d ids
      rw [List.foldl_cons]
      rw [ih (addRouterStep a (g, d, ids) r).1 (addRouterStep a (g, d, ids) r).2.1
        (addRouterStep a (g, d, ids) r).2.2]
      rw [addRouterStep_ids]
      simp

theorem pyRemove_not_mem : ∀ (l : List String) (x : String), ¬ x ∈ l →
    pyRemove l x = .error (.valueError x) := by
  intro l
  induction l with
  | nil => intro x _; rfl
  | cons a rest ih =>
      intro x h
      have h1 : ¬ a = x := fun he => h (by simp [he])
      have h2 : ¬ x ∈ rest := fun hm => h (by simp [hm])
      unfold pyRemove
      rw [if_neg h1, ih x h2, bindErr]

theorem pyRemove_mem : ∀ (l : List String) (x : String), x ∈ l →
    pyRemove l x = .ok (l.erase x) := by
  intro l
  induction l with
  | nil => intro x h; cases h
  | cons a rest ih =>
      intro x h
      by_cases h1 : a = x
      · unfold pyRemove
        rw [if_pos h1]
        subst h1
        simp [List.erase_cons]
      · have h2 : x ∈ rest := by
          rcases List.mem_cons.mp h with he | hm
          · exact absurd he.symm h1
          · exact hm
        unfold pyRemove
        rw [if_neg h1, ih x h2, bindOk]
        have : (a :: rest).erase x = a :: rest.erase x := by
          simp [List.erase_cons, h1]
        rw [this]

theorem warmUp_routerIds (s : NetTopology) (r : NetTopology × List Event × WarmStats)
    (h : s.warmUp = .ok r) : r.1.routerIds = s.routerIds := by
  unfold NetTopology.warmUp at h
  by_cases h1 : s.mode = "no-cache"
  · rw [if_pos h1] at h
    cases h
    rfl
  · rw [if_neg h1] at h
    by_cases h2 : s.mode = "no-color"
    · rw [if_pos h2] at h
      cases hb : buildBatches s.contentGenerator s.seed s.warmUpReqNums s.clientIds with
      | error e => rw [hb, bindErr] at h; cases h
      | ok bs => rw [hb, bindOk] at h; cases h; rfl
    · rw [if_neg h2] at h
      by_cases h3 : s.mode = "tag-color"
      · rw [if_pos h3] at h
        dsimp only at h
        cases ha : assignColors s.cacheMemoryDict (getColoringInfo s.graph s.colorList).2 with
        | error e => rw [ha, bindErr] at h; cases h
        | ok d2 => rw [ha, bindOk] at h; cases h; rfl
      · rw [if_neg h3] at h
        dsimp only at h
        cases ha : assignColors s.cacheMemoryDict (getColoringInfo s.graph s.colorList).2 with
        | error e => rw [ha, bindErr] at h; cases h
        | ok d2 => rw [ha, bindOk] at h; cases h; rfl


theorem postMain_link_warm (x : Except PyErr Graph) (f : Graph → NetTopology)
    (ids : List String)
    (hrid : ∀ g2, (f g2).routerIds = ids.erase "mainServer")
    (hcnt : ids.count "mainServer" ≤ 1) :
    postMainRemoved (x >>= fun g2 => (f g2).warmUp >>= fun r =>
      Except.ok (r.1, Event.printed "*** Processing content list\n" :: r.2.1, r.2.2)) ids := by
  cases x with
  | error e => rw [bindErr]; trivial
  | ok g2 =>
      rw [bindOk]
      cases hw : (f g2).warmUp with
      | error e => rw [bindErr]; trivial
      | ok r =>
          rw [bindOk]
          have h1 : r.1.routerIds = ids.erase "mainServer" := by
            rw [warmUp_routerIds (f g2) r hw, hrid]
          unfold postMainRemoved
          refine ⟨?_, h1⟩
          rw [h1]
          intro hmem
          have hpos : 0 < (ids.erase "mainServer").count "mainServer" :=
            List.count_pos_iff.mpr hmem
          rw [List.count_erase_self] at hpos
          omega

/-- Claim C9: `build` requires a router with ID exactly "mainServer":
after adding all routers it removes "mainServer" from `routerIds`, so on
every successful build the origin node is not listed among the router ids
(which equal the declared ids with "mainServer" removed), and when no such
router exists `build` raises an error instead of completing. -/
theorem C9_mainServer_required (s : NetTopology)
    (env : String → List (String × List (String × List Nat)))
    (hnodup : (s.networkInfo.Routers.map RouterCfg.ID).count "mainServer" ≤ 1) :
    (¬ "mainServer" ∈ s.networkInfo.Routers.map RouterCfg.ID →
      isOkE (NetTopology.build s env) = false) ∧
    postMainRemoved (NetTopology.build s env) (s.networkInfo.Routers.map RouterCfg.ID) := by
  unfold NetTopology.build
  cases hsg : mkSampleGen s.networkInfo with
  | error e =>
      rw [bindErr]
      exact ⟨fun _ => rfl, trivial⟩
  | ok sg =>
      rw [bindOk]
      unfold buildWithSampler
      dsimp only
      cases hgen : mkContentGenerator env s.networkInfo sg with
      | error e =>
          rw [bindErr]
          exact ⟨fun _ => rfl, trivial⟩
      | ok gen =>
          rw [bindOk]
          have hids : (s.networkInfo.Routers.foldl (addRouterStep gen.2)
              (s.graph, [], [])).2.2 = s.networkInfo.Routers.map RouterCfg.ID := by
            rw [routers_fold_ids]
            simp
          rw [hids]
          by_cases hm : "mainServer" ∈ s.networkInfo.Routers.map RouterCfg.ID
          · rw [pyRemove_mem _ _ hm, bindOk]
            refine ⟨fun hcon => absurd hm hcon, ?_⟩
            exact postMain_link_warm _ _ _ (fun g2 => rfl) hnodup
          · rw [pyRemove_not_mem _ _ hm, bindErr]
            exact ⟨fun _ => rfl, trivial⟩


theorem C9_mainServer_required_witness :
    postMainRemoved (NetTopology.build sC9 envNil)
      (sC9.networkInfo.Routers.map RouterCfg.ID) ∧
    (sC9.networkInfo.Routers.map RouterCfg.ID).count "mainServer" ≤ 1 :=
  ⟨(C9_mainServer_required sC9 envNil (by decide)).2, by decide⟩

theorem findConsIf {α : Type} (p : α → Bool) (a : α) (l : List α) :
    (a :: l).find? p = if p a then some a else l.find? p := by
  simp [List.find?]
  cases p a <;> simp

theorem findCongr {α : Type} (p q : α → Bool) (h : ∀ x, p x = q x) :
    ∀ l : List α, l.find? p = l.find? q := by
  intro l
  induction l with
  | nil => rfl
  | cons a rest ih => rw [findConsIf, findConsIf, h a, ih]

theorem findAppend {α : Type} (p : α → Bool) :
    ∀ (l1 l2 : List α), (l1 ++ l2).find? p =
      match l1.find? p with
      | some x => some x
      | none => l2.find? p := by
  intro l1 l2
  induction l1 with
  | nil => simp
  | cons a rest ih =>
      rw [List.cons_append, findConsIf, findConsIf]
      by_cases hp : p a = true
      · rw [if_pos hp, if_pos hp]
      · rw [if_neg hp, if_neg hp, ih]

theorem findNoneOfAnyFalse {α : Type} (p : α → Bool) (l : List α) (h : l.any p = false) :
    l.find? p = none := by
  rw [List.find?_eq_none]
  intro x hx hp
  rw [List.any_eq_false] at h
  exact h x hx hp

theorem filterNilOfAnyFalse {α : Type} (p : α → Bool) (l : List α) (h : l.any p = false) :
    l.filter p = [] := by
  rw [List.filter_eq_nil_iff]
  intro x hx hp
  rw [List.any_eq_false] at h
  exact h x hx hp

theorem findMapReplace {α : Type} (q : α → Bool) (e : α) (hq : q e = true) :
    ∀ l : List α, l.any q = true →
      (l.map (fun x => if q x then e else x)).find? q = some e := by
  intro l
  induction l with
  | nil => intro h; cases h
  | cons a rest ih =>
      intro h
      rw [List.map_cons, findConsIf]
      by_cases ha : q a = true
      · rw [if_pos ha, if_pos hq]
      · rw [if_neg ha, if_neg ha]
        rw [List.any_cons, Bool.or_eq_true] at h
        rcases h with h1 | h2
        · exact absurd h1 ha
        · exact ih h2

theorem findMapOther {α : Type} (p q : α → Bool) (e : α) (hpe : p e = false)
    (hcross : ∀ x, q x = true → p x = false) :
    ∀ l : List α, (l.map (fun x => if q x then e else x)).find? p = l.find? p := by
  intro l
  induction l with
  | nil => rfl
  | cons a rest ih =>
      rw [List.map_cons, findConsIf, findConsIf]
      by_cases ha : q a = true
      · rw [if_pos ha, hpe, hcross a ha, ih]
        simp
      · rw [if_neg ha]
        by_cases hpa : p a = true
        · rw [if_pos hpa, if_pos hpa]
        · rw [if_neg hpa, if_neg hpa, ih]

theorem filterMapReplace {α : Type} (q : α → Bool) (e : α) (hq : q e = true) :
    ∀ l : List α,
      ((l.map (fun x => if q x then e else x)).filter q).length = (l.filter q).length := by
  intro l
  induction l with
  | nil => rfl
  | cons a rest ih =>
      rw [List.map_cons, List.filter_cons, List.filter_cons]
      by_cases ha : q a = true
      · rw [if_pos ha, if_pos hq, if_pos ha]
        simp [ih]
      · rw [if_neg ha, if_neg ha, if_neg ha, ih]

theorem filterMapOther {α : Type} (p q : α → Bool) (e : α) (hpe : p e = false)
    (hcross : ∀ x, q x = true → p x = false) :
    ∀ l : List α,
      ((l.map (fun x => if q x then e else x)).filter p).length = (l.filter p).length := by
  intro l
  induction l with
  | nil => rfl
  | cons a rest ih =>
      rw [List.map_cons, List.filter_cons, List.filter_cons]
      by_cases ha : q a = true
      · rw [if_pos ha, hpe, hcross a ha]
        simp [ih]
      · rw [if_neg ha]
        by_cases hpa : p a = true
        · rw [if_pos hpa, if_pos hpa]
          simp [ih]
        · rw [if_neg hpa, if_neg hpa, ih]

theorem sameEnds_true_iff (e : Edge) (a b : String) :
    sameEnds e a b = true ↔ (e.n1 = a ∧ e.n2 = b) ∨ (e.n1 = b ∧ e.n2 = a) := by
  simp [sameEnds]

theorem sameEnds_false_iff (e : Edge) (a b : String) :
    sameEnds e a b = false ↔ ¬ ((e.n1 = a ∧ e.n2 = b) ∨ (e.n1 = b ∧ e.n2 = a)) := by
  rw [← Bool.not_eq_true, sameEnds_true_iff]

theorem sameEnds_self (e : Edge) : sameEnds e e.n1 e.n2 = true := by
  rw [sameEnds_true_iff]
  exact Or.inl ⟨rfl, rfl⟩

theorem sameEnds_swap (x : Edge) (a b : String) : sameEnds x a b = sameEnds x b a := by
  unfold sameEnds
  rw [Bool.or_comm]

theorem sameEnds_cross (x e : Edge) (a b : String) (h : sameEnds e a b = false)
    (hq : sameEnds x e.n1 e.n2 = true) : sameEnds x a b = false := by
  rw [sameEnds_false_iff] at h ⊢
  rw [sameEnds_true_iff] at hq
  intro hx
  apply h
  rcases hq with ⟨q1, q2⟩ | ⟨q1, q2⟩ <;> rcases hx with ⟨x1, x2⟩ | ⟨x1, x2⟩
  · exact Or.inl ⟨q1.symm.trans x1, q2.symm.trans x2⟩
  · exact Or.inr ⟨q1.symm.trans x1, q2.symm.trans x2⟩
  · exact Or.inr ⟨q2.symm.trans x2, q1.symm.trans x1⟩
  · exact Or.inl ⟨q2.symm.trans x2, q1.symm.trans x1⟩

theorem sameEnds_of_pair (e : Edge) (a b : String) (h : sameEnds e a b = true) :
    ∀ x : Edge, sameEnds x a b = sameEnds x e.n1 e.n2 := by
  intro x
  rw [sameEnds_true_iff] at h
  rcases h with ⟨h1, h2⟩ | ⟨h1, h2⟩
  · rw [h1, h2]
  · rw [h1, h2, sameEnds_swap]

theorem addNode_edges (g : Graph) (n : String) (k : NodeKind) :
    (g.addNode n k).edges = g.edges := by
  unfold Graph.addNode
  split <;> rfl

theorem addEdge_edges (g : Graph) (e : Edge) :
    (g.addEdge e).edges =
      if g.edges.any (fun x => sameEnds x e.n1 e.n2) then
        g.edges.map (fun x => if sameEnds x e.n1 e.n2 then e else x)
      else g.edges ++ [e] := by
  unfold Graph.addEdge
  dsimp only
  rw [addNode_edges, addNode_edges]
  split <;> rfl

theorem edgeWeight_symm (g : Graph) (a b : String) :
    g.edgeWeight a b = g.edgeWeight b a := by
  unfold Graph.edgeWeight
  rw [findCongr _ _ (fun x => sameEnds_swap x a b) g.edges]

theorem addEdge_weight_self (g : Graph) (e : Edge) :
    (g.addEdge e).edgeWeight e.n1 e.n2 = some e.weight := by
  unfold Graph.edgeWeight
  rw [addEdge_edges]
  by_cases hany : g.edges.any (fun x => sameEnds x e.n1 e.n2) = true
  · rw [if_pos hany, findMapReplace _ e (sameEnds_self e) _ hany]
    rfl
  · rw [if_neg hany, findAppend]
    rw [findNoneOfAnyFalse _ _ (Bool.not_eq_true _ ▸ hany)]
    rw [findConsIf, if_pos (sameEnds_self e)]
    rfl

theorem addEdge_weight_other (g : Graph) (e : Edge) (a b : String)
    (h : sameEnds e a b = false) :
    (g.addEdge e).edgeWeight a b = g.edgeWeight a b := by
  unfold Graph.edgeWeight
  rw [addEdge_edges]
  by_cases hany : g.edges.any (fun x => sameEnds x e.n1 e.n2) = true
  · rw [if_pos hany,
      findMapOther _ _ e h (fun x hx => sameEnds_cross x e a b h hx) g.edges]
  · rw [if_neg hany, findAppend]
    cases hf : g.edges.find? (fun x => sameEnds x a b) with
    | some w => rfl
    | none => rw [findConsIf, if_neg (by rw [h]; exact Bool.false_ne_true), List.find?_nil]

theorem edgeCount_addEdge_other (g : Graph) (e : Edge) (a b : String)
    (h : sameEnds e a b = false) :
    edgeCount (g.addEdge e) a b = edgeCount g a b := by
  unfold edgeCount
  rw [addEdge_edges]
  by_cases hany : g.edges.any (fun x => sameEnds x e.n1 e.n2) = true
  · rw [if_pos hany,
      filterMapOther _ _ e h (fun x hx => sameEnds_cross x e a b h hx) g.edges]
  · rw [if_neg hany, List.filter_append g.edges [e], List.length_append]
    rw [List.filter_cons, if_neg (by rw [h]; exact Bool.false_ne_true)]
    rfl

theorem edgeCount_addEdge_le1 (g : Graph) (e : Edge)
    (hg : ∀ x y, edgeCount g x y ≤ 1) :
    ∀ a b, edgeCount (g.addEdge e) a b ≤ 1 := by
  intro a b
  by_cases hse : sameEnds e a b = true
  · have hcongr : ∀ (g' : Graph), edgeCount g' a b = edgeCount g' e.n1 e.n2 := by
      intro g'
      unfold edgeCount
      rw [List.filter_congr (fun x _ => sameEnds_of_pair e a b hse x)]
    rw [hcongr]
    unfold edgeCount
    rw [addEdge_edges]
    by_cases hany : g.edges.any (fun x => sameEnds x e.n1 e.n2) = true
    · rw [if_pos hany, filterMapReplace _ e (sameEnds_self e) g.edges]
      have := hg e.n1 e.n2
      unfold edgeCount at this
      exact this
    · rw [if_neg hany, List.filter_append g.edges [e], List.length_append]
      rw [filterNilOfAnyFalse _ _ (Bool.not_eq_true _ ▸ hany)]
      rw [List.filter_cons, if_pos (sameEnds_self e)]
      rfl
  · rw [edgeCount_addEdge_other g e a b (Bool.not_eq_true _ ▸ hse)]
    exact hg a b

theorem edgeCount_pos_of_weight (g : Graph) (a b : String) (w : Q)
    (h : g.edgeWeight a b = some w) : 0 < edgeCount g a b := by
  unfold Graph.edgeWeight at h
  cases hf : g.edges.find? (fun x => sameEnds x a b) with
  | none => rw [hf] at h; cases h
  | some e =>
      have hm := List.mem_of_find?_eq_some hf
      have hp := List.find?_some hf
      have : e ∈ g.edges.filter (fun x => sameEnds x a b) := List.mem_filter.mpr ⟨hm, hp⟩
      unfold edgeCount
      exact List.length_pos.mpr (fun he => by rw [he] at this; cases this)

theorem bindRight {α : Type} (x : Except PyErr α) :
    (x >>= fun a => Except.ok a) = x := by
  cases x <;> rfl

theorem pySplit2_ok (s sep x y : String) (h : pySplit2 s sep = .ok (x, y)) :
    pySplitOn s sep = [x, y] := by
  unfold pySplit2 at h
  cases hs : pySplitOn s sep with
  | nil => rw [hs] at h; cases h
  | cons a rest =>
      cases rest with
      | nil => rw [hs] at h; cases h
      | cons b rest2 =>
          cases rest2 with
          | nil =>
              rw [hs] at h
              cases h
              rfl
          | cons c rest3 => rw [hs] at h; cases h

theorem invBw_ok (bw w : Q) (h : invBw bw = .ok w) : w = qDiv 1 bw := by
  unfold invBw at h
  by_cases hz : qIsZero bw = true
  · rw [if_pos hz] at h; cases h
  · rw [if_neg hz] at h
    cases h
    rfl

theorem addLink_ok (g : Graph) (l : LinkCfg) (g' : Graph)
    (h : addLink g l = .ok g') :
    ∃ e : Edge, g' = g.addEdge e ∧ linkEnds l = some (e.n1, e.n2) ∧
      e.weight = qDiv 1 l.params1.bw := by
  unfold addLink at h
  cases hn : l.NodeIds with
  | nil =>
      rw [hn] at h
      simp [pyGetIdx, bindErr] at h
  | cons n0 rest0 =>
      rw [hn] at h
      rw [show pyGetIdx (n0 :: rest0) 0 = Except.ok n0 from rfl, bindOk] at h
      cases hs0 : pySplit2 n0 "/" with
      | error e0 => rw [hs0, bindErr] at h; cases h
      | ok e1 =>
          obtain ⟨a1, i1⟩ := e1
          rw [hs0, bindOk] at h
          cases hp2 : l.params2 with
          | some p2 =>
              rw [hp2] at h
              dsimp only at h
              cases rest0 with
              | nil =>
                  simp [pyGetIdx, bindErr] at h
              | cons n1 rest1 =>
                  rw [show pyGetIdx (n0 :: n1 :: rest1) 1 = Except.ok n1 from rfl,
                    bindOk] at h
                  cases hs1 : pySplit2 n1 "/" with
                  | error e0 => rw [hs1, bindErr] at h; cases h
                  | ok e2 =>
                      obtain ⟨a2, i2⟩ := e2
                      rw [hs1, bindOk] at h
                      cases hbw : invBw l.params1.bw with
                      | error e0 => rw [hbw, bindErr] at h; cases h
                      | ok w =>
                          rw [hbw, bindOk] at h
                          cases h
                          refine ⟨_, rfl, ?_, ?_⟩
                          · unfold linkEnds
                            rw [hn]
                            dsimp only
                            rw [pySplit2_ok n0 "/" a1 i1 hs0]
                            dsimp only
                            rw [hp2]
                            dsimp only
                            rw [pySplit2_ok n1 "/" a2 i2 hs1]
                          · exact invBw_ok _ _ hbw
          | none =>
              rw [hp2] at h
              dsimp only at h
              cases rest0 with
              | nil =>
                  simp [pyGetIdx, bindErr] at h
              | cons n1 rest1 =>
                  rw [show pyGetIdx (n0 :: n1 :: rest1) 1 = Except.ok n1 from rfl,
                    bindOk] at h
                  cases hd : deriveIp2 l.params1.ip with
                  | error e0 => rw [hd, bindErr] at h; cases h
                  | ok ip2 =>
                      rw [hd, bindOk] at h
                      cases hbw : invBw l.params1.bw with
                      | error e0 => rw [hbw, bindErr] at h; cases h
                      | ok w =>
                          rw [hbw, bindOk] at h
                          cases h
                          refine ⟨_, rfl, ?_, ?_⟩
                          · unfold linkEnds
                            rw [hn]
                            dsimp only
                            rw [pySplit2_ok n0 "/" a1 i1 hs0]
                            dsimp only
                            rw [hp2]
                          · exact invBw_ok _ _ hbw

theorem endsAt_eq_sameEnds (l : LinkCfg) (e : Edge) (a b : String)
    (hends : linkEnds l = some (e.n1, e.n2)) :
    endsAt l a b = sameEnds e a b := by
  unfold endsAt sameEnds
  rw [hends]

theorem endsAt_of_clash (l l' : LinkCfg) (a b : String)
    (hends : linkEnds l = some (a, b)) (hcl : endsClash l l' = false) :
    endsAt l' a b = false := by
  unfold endsClash at hcl
  rw [hends] at hcl
  unfold endsAt
  cases hl' : linkEnds l' with
  | none => rfl
  | some p =>
      obtain ⟨c, d⟩ := p
      rw [hl'] at hcl
      simp only [Bool.or_eq_false_iff, Bool.and_eq_false_iff, decide_eq_false_iff_not] at hcl ⊢
      constructor
      · rcases hcl.1 with h1 | h1
        · exact Or.inl (fun he => h1 he.symm)
        · exact Or.inr (fun he => h1 he.symm)
      · rcases hcl.2 with h1 | h1
        · exact Or.inr (fun he => h1 he.symm)
        · exact Or.inl (fun he => h1 he.symm)

theorem addLinks_le1 : ∀ (ls : List LinkCfg) (g g2 : Graph),
    addLinks g ls = .ok g2 → (∀ x y, edgeCount g x y ≤ 1) →
    ∀ x y, edgeCount g2 x y ≤ 1 := by
  intro ls
  induction ls with
  | nil =>
      intro g g2 h hg
      cases h
      exact hg
  | cons x rest ih =>
      intro g g2 h hg
      unfold addLinks at h
      cases ha : addLink g x with
      | error e => rw [ha, bindErr] at h; cases h
      | ok g1 =>
          rw [ha, bindOk, bindRight] at h
          obtain ⟨e, hg1, _, _⟩ := addLink_ok g x g1 ha
          subst hg1
          exact ih (g.addEdge e) g2 h (edgeCount_addEdge_le1 g e hg)

theorem addLinks_preserve : ∀ (ls : List LinkCfg) (g g2 : Graph) (a b : String),
    addLinks g ls = .ok g2 → (∀ l' ∈ ls, endsAt l' a b = false) →
    g2.edgeWeight a b = g.edgeWeight a b ∧ edgeCount g2 a b = edgeCount g a b := by
  intro ls
  induction ls with
  | nil =>
      intro g g2 a b h _
      cases h
      exact ⟨rfl, rfl⟩
  | cons x rest ih =>
      intro g g2 a b h hno
      unfold addLinks at h
      cases ha : addLink g x with
      | error e => rw [ha, bindErr] at h; cases h
      | ok g1 =>
          rw [ha, bindOk, bindRight] at h
          obtain ⟨e, hg1, hends, _⟩ := addLink_ok g x g1 ha
          subst hg1
          have hse : sameEnds e a b = false := by
            rw [← endsAt_eq_sameEnds x e a b hends]
            exact hno x (List.mem_cons_self _ _)
          obtain ⟨hw, hc⟩ := ih (g.addEdge e) g2 a b h
            (fun l' hl' => hno l' (List.mem_cons_of_mem _ hl'))
          rw [hw, hc, addEdge_weight_other g e a b hse, edgeCount_addEdge_other g e a b hse]
          exact ⟨rfl, rfl⟩

theorem addLinks_link_edge : ∀ (ls : List LinkCfg) (g g2 : Graph) (l : LinkCfg)
    (a b : String),
    addLinks g ls = .ok g2 → l ∈ ls → linkEnds l = some (a, b) →
    ls.Pairwise (fun l1 l2 => endsClash l1 l2 = false) →
    (∀ x y, edgeCount g x y ≤ 1) →
    g2.edgeWeight a b = some (qDiv 1 l.params1.bw) ∧ edgeCount g2 a b = 1 := by
  intro ls
  induction ls with
  | nil =>
      intro g g2 l a b _ hmem
      cases hmem
  | cons x rest ih =>
      intro g g2 l a b hrun hmem hends hpw hg
      unfold addLinks at hrun
      cases ha : addLink g x with
      | error e => rw [ha, bindErr] at hrun; cases hrun
      | ok g1 =>
          rw [ha, bindOk, bindRight] at hrun
          obtain ⟨e, hg1, hxe, hwe⟩ := addLink_ok g x g1 ha
          subst hg1
          rcases List.mem_cons.mp hmem with hlx | hlr
          · subst hlx
            rw [hends] at hxe
            injection hxe with hpair
            have ha1 : a = e.n1 := congrArg Prod.fst hpair
            have hb1 : b = e.n2 := congrArg Prod.snd hpair
            subst ha1
            subst hb1
            have hW1 : (g.addEdge e).edgeWeight e.n1 e.n2 = some e.weight :=
              addEdge_weight_self g e
            have hC1 : edgeCount (g.addEdge e) e.n1 e.n2 = 1 := by
              have hle := edgeCount_addEdge_le1 g e hg e.n1 e.n2
              have hpos := edgeCount_pos_of_weight _ _ _ _ hW1
              omega
            have hno : ∀ l' ∈ rest, endsAt l' e.n1 e.n2 = false := by
              intro l' hl'
              exact endsAt_of_clash l l' e.n1 e.n2 hends
                ((List.pairwise_cons.mp hpw).1 l' hl')
            obtain ⟨hwp, hcp⟩ := addLinks_preserve rest (g.addEdge e) g2 e.n1 e.n2 hrun hno
            rw [hwp, hcp, hW1, hC1, hwe]
            exact ⟨rfl, rfl⟩
          · exact ih (g.addEdge e) g2 l a b hrun hlr hends
              (List.pairwise_cons.mp hpw).2 (edgeCount_addEdge_le1 g e hg)

/-- Claim C7: for every link in the configuration's link list, the link
loop of `build` adds exactly one undirected edge between the link's two
endpoint nodes whose weight is 1 divided by the link's configured
bandwidth (params1.bw): in the resulting graph the weight between the
endpoints is 1/bw, the lookup is symmetric (undirected), and exactly one
edge joins the pair; this weight field is what the shortest-path routing
cost is computed over. -/
theorem C7_link_edges (g g2 : Graph) (links : List LinkCfg) (l : LinkCfg) (a b : String)
    (hrun : addLinks g links = .ok g2)
    (hmem : l ∈ links)
    (hends : linkEnds l = some (a, b))
    (hcl : links.Pairwise (fun l1 l2 => endsClash l1 l2 = false))
    (hstart : ∀ x y, edgeCount g x y ≤ 1) :
    g2.edgeWeight a b = some (qDiv 1 l.params1.bw) ∧
    g2.edgeWeight b a = g2.edgeWeight a b ∧
    edgeCount g2 a b = 1 := by
  obtain ⟨h1, h2⟩ := addLinks_link_edge links g g2 l a b hrun hmem hends hcl hstart
  exact ⟨h1, edgeWeight_symm g2 b a, h2⟩

theorem C7_link_edges_witness :
    (g2W7.edgeWeight "x" "y" = some (qDiv 1 5) ∧
     g2W7.edgeWeight "y" "x" = g2W7.edgeWeight "x" "y" ∧
     edgeCount g2W7 "x" "y" = 1) ∧
    linkEnds linkW7a = some ("x", "y") :=
  ⟨C7_link_edges gW7 g2W7 linksW7 linkW7a "x" "y" rfl (by decide) rfl
    (by decide) (by intro x y; simp [edgeCount, gW7]), rfl⟩
